import Mathlib

/-!
Verification of the virtual-COG layout planner, TIFF directory encoder and
byte-range streamer of `cogserver.py`.

Bytes are modelled as `List Nat` (each element a byte value).  Machine
integers are `Nat`; `struct.pack` of an unsigned little-endian field of
`n` bytes is modelled by `packLE n` (the Python call raises on overflow;
boundedness of every packed value in classic mode is proved separately).

The raster dataset, the GDAL colour-interpretation queries, the harvested
GeoTIFF tag payloads, the nodata string and the per-tile pixel reads are
external inputs of the program (GDAL calls); they appear as fields of
`Config` and are constrained only by the well-formedness predicate `WF`.
-/

namespace CogServer

/-- Little-endian encoding of `v` on `n` bytes; models `struct.pack` of an
unsigned little-endian integer field (`<H`, `<I`, `<Q`). -/
def packLE (n v : Nat) : List Nat := (List.range n).map fun i => v / 256 ^ i % 256

/-- Little-endian decoding of a byte list; models `struct.unpack`. -/
def unpackLE (l : List Nat) : Nat := l.foldr (fun b acc => b + 256 * acc) 0

/-- GDAL pixel data types handled by `generate_header` (cogserver.py lines 328-339). -/
inductive GDALDataType where
  | GDT_Byte
  | GDT_UInt16
  | GDT_Int16
  | GDT_UInt32
  | GDT_Int32
  | GDT_Float32
  | GDT_Float64
  | GDT_CInt16
  | GDT_CInt32
  | GDT_CFloat32
  | GDT_CFloat64
deriving DecidableEq

/-- Bits per sample of each GDAL data type: models `gdal.GetDataTypeSize`,
used by `Raster.__init__` (line 115). -/
def GetDataTypeSize : GDALDataType → Nat
  | .GDT_Byte => 8
  | .GDT_UInt16 => 16
  | .GDT_Int16 => 16
  | .GDT_UInt32 => 32
  | .GDT_Int32 => 32
  | .GDT_Float32 => 32
  | .GDT_Float64 => 64
  | .GDT_CInt16 => 32
  | .GDT_CInt32 => 64
  | .GDT_CFloat32 => 64
  | .GDT_CFloat64 => 128

/-- One harvested GeoTIFF tag, as appended by `_geotiff_tags` (lines 231-232):
tag id, TIFF data type, value count, and the payload bytes read from the
temporary GDAL-written file.  The harvesting itself calls GDAL and is
external; the resulting list is an input of the model. -/
structure GeoTag where
  tagid : Nat
  tagtype : Nat
  valrepeat : Nat
  payload : List Nat
deriving DecidableEq

/-- The six recognized GeoTIFF tag ids (cogserver.py lines 89-100). -/
def geotiff_tagids : List Nat := [33550, 33922, 34264, 34735, 34736, 34737]

/-- External inputs of the generator: the raster geometry and data type
(class `Raster`), the GDAL colour-interpretation answers used by
`TIFFGenerator.__init__`, the harvested GeoTIFF tags, the nodata value's
ASCII representation (`str(nv).encode('ascii')`), if any, and the pixel
bytes `gettiledata` obtains from GDAL for each tile index. -/
structure Config where
  width : Nat
  height : Nat
  num_bands : Nat
  datatype : GDALDataType
  band1_red : Bool
  first_extrasample_alpha : Bool
  geotifftags : List GeoTag
  nodata_str : Option (List Nat)
  tileData : Nat → List Nat

/-- Fixed tile width (Raster.__init__, line 117). -/
def tile_width : Nat := 512

/-- Fixed tile height (Raster.__init__, line 118). -/
def tile_height : Nat := 512

/-- Bits per sample of the raster (Raster.__init__, line 115). -/
def bitspersample (g : Config) : Nat := GetDataTypeSize g.datatype

/-- Number of tile columns (Raster.__init__, lines 119-120). -/
def tile_x_count (g : Config) : Nat := (g.width + tile_width - 1) / tile_width

/-- Number of tile rows (Raster.__init__, lines 121-122). -/
def tile_y_count (g : Config) : Nat := (g.height + tile_height - 1) / tile_height

/-- Total number of tiles (Raster.__init__, line 123). -/
def tile_count (g : Config) : Nat := tile_x_count g * tile_y_count g

/-- Photometric interpretation (TIFFGenerator.__init__, lines 134-137):
RGB (2) when at least three bands and band 1 is the red band, else
min-is-black (1). -/
def photometric (g : Config) : Nat :=
  if 3 ≤ g.num_bands ∧ g.band1_red = true then 2 else 1

/-- Number of extra samples (TIFFGenerator.__init__, lines 144-149). -/
def num_extrasamples (g : Config) : Nat :=
  if photometric g = 2 then g.num_bands - 3 else g.num_bands - 1

/-- First extra-sample code (lines 151-154): unassociated alpha (2) when the
first extra band is an alpha band, else unspecified (0). -/
def first_extrasample (g : Config) : Nat :=
  if g.first_extrasample_alpha then 2 else 0

/-- The `extrasamples` byte string of TIFFGenerator.__init__ (lines 139-157):
present when there are bands beyond the photometric ones, encoded as one
4-byte little-endian value per extra sample. -/
def extrasamples (g : Config) : Option (List Nat) :=
  if g.num_bands = 2 ∨ (3 ≤ g.num_bands ∧ photometric g = 1) ∨
      (3 < g.num_bands ∧ photometric g = 2) then
    some (packLE 4 (first_extrasample g) ++
      (List.replicate (num_extrasamples g - 1) (packLE 4 0)).flatten)
  else none

/-- The `nodata` byte string (lines 161-166): the ASCII representation of the
nodata value padded with seven spaces and a trailing NUL so that it is at
least 8 bytes long. -/
def nodata (g : Config) : Option (List Nat) :=
  g.nodata_str.map fun s => s ++ List.replicate 7 32 ++ [0]

/-- Tag count (lines 131, 143, 164, 233): 12 mandatory tags, plus ExtraSamples,
one per harvested GeoTIFF tag, plus NoData. -/
def num_tags (g : Config) : Nat :=
  12 + (if (extrasamples g).isSome then 1 else 0) + g.geotifftags.length +
    (if (nodata g).isSome then 1 else 0)

/-- TIFF signature bytes set by `_init` (lines 176, 188). -/
def TIFF_SIGNATURE (big : Bool) : List Nat :=
  if big then [0x49, 0x49, 0x2B, 0x00, 0x08, 0x00, 0x00, 0x00]
  else [0x49, 0x49, 0x2A, 0x00]

/-- Signature length, `len(self.TIFF_SIGNATURE)` (lines 177, 189). -/
def sig_size (big : Bool) : Nat := (TIFF_SIGNATURE big).length

/-- Width of an IFD-offset field (lines 178-179, 190-191). -/
def ifd_offset_size (big : Bool) : Nat := if big then 8 else 4

/-- Width of the tag-count field (lines 180-181, 192-193). -/
def num_tags_size (big : Bool) : Nat := if big then 8 else 2

/-- Width of the value-count field of a directory entry
(`number_of_values_formatter`, lines 182, 194). -/
def number_of_values_size (big : Bool) : Nat := if big then 8 else 4

/-- Width of the value-or-offset field of a directory entry
(`tag_data_or_offset_formatter`, lines 183, 195). -/
def tag_data_or_offset_size (big : Bool) : Nat := if big then 8 else 4

/-- Size of one directory entry (lines 184, 196). -/
def tagsize (big : Bool) : Nat := if big then 20 else 12

/-- TIFF type code used for the tile-offset and tile-bytecount tags
(lines 185, 197): LONG8 (16) in BigTIFF, LONG (4) in classic mode. -/
def tileoffsetype (big : Bool) : Nat := if big then 16 else 4

/-- Width of a tile-offset table entry (lines 186, 198). -/
def tileoffsetsize (big : Bool) : Nat := if big then 8 else 4

/-- The `long_size` attribute (line 130); it stays 4 in both modes. -/
def long_size : Nat := 4

/-- Header size without the out-of-line tag data
(`_getheadersize_without_tag_data`, lines 236-238). -/
def getheadersize_without_tag_data (g : Config) (big : Bool) : Nat :=
  sig_size big + ifd_offset_size big + num_tags_size big +
    num_tags g * tagsize big + ifd_offset_size big

/-- Header size (`getheadersize`, lines 240-249): directory plus bit-depth
array, out-of-line extra samples, GeoTIFF payloads and nodata string. -/
def getheadersize (g : Config) (big : Bool) : Nat :=
  getheadersize_without_tag_data g big +
    (if 1 < g.num_bands then long_size * g.num_bands else 0) +
    (match extrasamples g with
     | some es => if long_size < es.length then es.length else 0
     | none => 0) +
    (g.geotifftags.map fun t => t.payload.length).sum +
    (match nodata g with
     | some nd => nd.length
     | none => 0)

/-- Size in bytes of one (uncompressed, full) tile (`tilesize`, lines 372-373). -/
def tilesize (g : Config) : Nat :=
  g.num_bands * tile_width * tile_height * bitspersample g / 8

/-- Offset of the tile-data region (`dataoffset`, lines 384-388): the header,
followed by the two tile tables when there is more than one tile. -/
def dataoffset (g : Config) (big : Bool) : Nat :=
  getheadersize g big +
    (if 1 < tile_count g then 2 * tile_count g * tileoffsetsize big else 0)

/-- Total virtual file size (`getfilesize`, lines 390-391). -/
def getfilesize (g : Config) (big : Bool) : Nat :=
  dataoffset g big + tile_count g * tilesize g

/-- The BigTIFF decision of `TIFFGenerator.__init__` (lines 168-171): start in
classic mode, and switch to BigTIFF exactly when the classic-mode total file
size reaches `1 << 32`, re-deriving the layout once. -/
def bigtiff (g : Config) : Bool := decide (2 ^ 32 ≤ getfilesize g false)

/-- One IFD entry as assembled by `generate_header` via `write_tag`
(lines 251-257): tag id, type, value count and the packed fourth field.
`inlined` records which branch of `generate_header` produced the fourth
field: `true` when it is the tag's value, `false` when it is an absolute
offset to out-of-line value bytes. -/
structure TagEntry where
  tagid : Nat
  tagtype : Nat
  count : Nat
  valueOrOffset : Nat
  inlined : Bool
deriving DecidableEq

/-- Serialization of one directory entry (`write_tag`, lines 251-257). -/
def write_tag (big : Bool) (e : TagEntry) : List Nat :=
  packLE 2 e.tagid ++ packLE 2 e.tagtype ++
    packLE (number_of_values_size big) e.count ++
    packLE (tag_data_or_offset_size big) e.valueOrOffset

/-- Byte size of a TIFF data type (TIFF type codes, lines 36-51; extends the
`datatypesize` dict of lines 53-56, which lists ASCII, SHORT and DOUBLE, to
the remaining codes of the format). -/
def typeSize : Nat → Nat
  | 1 => 1
  | 2 => 1
  | 3 => 2
  | 4 => 4
  | 5 => 8
  | 6 => 1
  | 7 => 1
  | 8 => 2
  | 9 => 4
  | 10 => 8
  | 11 => 4
  | 12 => 8
  | 13 => 4
  | 16 => 8
  | 17 => 8
  | 18 => 8
  | _ => 0

/-- Encoded byte length of an entry's value: value count times the byte size
of its TIFF data type. -/
def enclen (e : TagEntry) : Nat := e.count * typeSize e.tagtype

/-- SampleFormat tag value (lines 328-339). -/
def sampleformat (g : Config) : Nat :=
  match g.datatype with
  | .GDT_Byte => 1
  | .GDT_UInt16 => 1
  | .GDT_UInt32 => 1
  | .GDT_Int16 => 2
  | .GDT_Int32 => 2
  | .GDT_Float32 => 3
  | .GDT_Float64 => 3
  | .GDT_CInt16 => 5
  | .GDT_CInt32 => 5
  | .GDT_CFloat32 => 6
  | .GDT_CFloat64 => 6

/-- Directory entries for the harvested GeoTIFF tags (lines 343-345): each is
written with the running tag-data offset, which then advances by the
payload length. -/
def geoEntries : List GeoTag → Nat → List TagEntry
  | [], _ => []
  | t :: rest, off =>
      ⟨t.tagid, t.tagtype, t.valrepeat, off, false⟩ ::
        geoEntries rest (off + t.payload.length)

/-- The directory entries written by `generate_header` (lines 259-355), in
emission order, with the same tag-data-offset threading: the offset starts at
the directory size, advances past the bit-depth array, then past the
out-of-line extra samples, each GeoTIFF payload, and the nodata string. -/
def entries (g : Config) (big : Bool) : List TagEntry :=
  let td0 := getheadersize_without_tag_data g big
  let bitspersample_value := if 1 < g.num_bands then td0 else bitspersample g
  let td1 := if 1 < g.num_bands then td0 + long_size * g.num_bands else td0
  let esLen := match extrasamples g with
    | some es => if long_size < es.length then es.length else 0
    | none => 0
  let geoLen := (g.geotifftags.map fun t => t.payload.length).sum
  let ndLen := match nodata g with
    | some nd => nd.length
    | none => 0
  let tileoffsets_offset :=
    if tile_count g = 1 then dataoffset g big else td1 + esLen + geoLen + ndLen
  let tilebytecounts_offset :=
    if tile_count g = 1 then tilesize g
    else td1 + esLen + geoLen + ndLen + tile_count g * tileoffsetsize big
  ⟨256, 4, 1, g.width, true⟩ ::
  ⟨257, 4, 1, g.height, true⟩ ::
  ⟨258, 4, g.num_bands, bitspersample_value, decide (g.num_bands ≤ 1)⟩ ::
  ⟨259, 4, 1, 1, true⟩ ::
  ⟨262, 4, 1, photometric g, true⟩ ::
  ⟨277, 4, 1, g.num_bands, true⟩ ::
  ⟨284, 4, 1, 1, true⟩ ::
  ⟨322, 4, 1, tile_width, true⟩ ::
  ⟨323, 4, 1, tile_height, true⟩ ::
  ⟨324, tileoffsetype big, tile_count g, tileoffsets_offset, decide (tile_count g = 1)⟩ ::
  ⟨325, tileoffsetype big, tile_count g, tilebytecounts_offset, decide (tile_count g = 1)⟩ ::
  ((match extrasamples g with
    | some es =>
        if long_size < es.length then [⟨338, 4, es.length / long_size, td1, false⟩]
        else [⟨338, 4, 1, unpackLE es, true⟩]
    | none => []) ++
   ⟨339, 4, 1, sampleformat g, true⟩ ::
   (geoEntries g.geotifftags (td1 + esLen) ++
    (match nodata g with
     | some nd => [⟨42113, 2, nd.length, td1 + esLen + geoLen, false⟩]
     | none => [])))

/-- Out-of-line tag data written after the directory (lines 357-368): the
bit-depth array, the out-of-line extra samples, the GeoTIFF payloads and the
nodata string, in that order. -/
def tagDataBytes (g : Config) : List Nat :=
  (if 1 < g.num_bands then
      (List.replicate g.num_bands (packLE 4 (bitspersample g))).flatten
   else []) ++
  (match extrasamples g with
   | some es => if long_size < es.length then es else []
   | none => []) ++
  (g.geotifftags.map fun t => t.payload).flatten ++
  (match nodata g with
   | some nd => nd
   | none => [])

/-- The generated header bytes (`generate_header`, lines 259-370): signature,
offset to first IFD, tag count, the directory entries, the zero next-IFD
offset, then the out-of-line tag data. -/
def generate_header (g : Config) (big : Bool) : List Nat :=
  TIFF_SIGNATURE big ++
  packLE (ifd_offset_size big) (sig_size big + ifd_offset_size big) ++
  packLE (num_tags_size big) (num_tags g) ++
  ((entries g big).map (write_tag big)).flatten ++
  packLE (ifd_offset_size big) 0 ++
  tagDataBytes g

/-- The header bytes before the out-of-line tag data: signature, first-IFD
offset, tag count, directory entries and the zero next-IFD offset (the first
`_getheadersize_without_tag_data` bytes of `generate_header`). -/
def headerPre (g : Config) (big : Bool) : List Nat :=
  TIFF_SIGNATURE big ++
  packLE (ifd_offset_size big) (sig_size big + ifd_offset_size big) ++
  packLE (num_tags_size big) (num_tags g) ++
  ((entries g big).map (write_tag big)).flatten ++
  packLE (ifd_offset_size big) 0

/-- The tile-offset table (`generate_tileoffsets`, lines 375-378). -/
def generate_tileoffsets (g : Config) (big : Bool) : List Nat :=
  ((List.range (tile_count g)).map fun i =>
    packLE (tag_data_or_offset_size big) (dataoffset g big + tilesize g * i)).flatten

/-- The tile-bytecount table (`generate_tilebytecounts`, lines 380-382). -/
def generate_tilebytecounts (g : Config) (big : Bool) : List Nat :=
  ((List.range (tile_count g)).map fun _ =>
    packLE (tag_data_or_offset_size big) (tilesize g)).flatten

/-- The value bytes of each tag that can be placed out of line, selected by
tag id: the bit-depth array (258), the tile tables (324, 325), the
extra-samples string (338), the nodata string (42113), and the payload of
the harvested GeoTIFF tag with that id. -/
def oolValue (g : Config) (big : Bool) (tid : Nat) : List Nat :=
  if tid = 258 then (List.replicate g.num_bands (packLE 4 (bitspersample g))).flatten
  else if tid = 324 then generate_tileoffsets g big
  else if tid = 325 then generate_tilebytecounts g big
  else if tid = 338 then (extrasamples g).getD []
  else if tid = 42113 then (nodata g).getD []
  else
    match g.geotifftags.find? fun t => t.tagid == tid with
    | some t => t.payload
    | none => []

/-- The non-tile part of the virtual file, as assembled by `generate_tiff`
(lines 470-472 and 497-499): the header, followed by the two tile tables when
there is more than one tile. -/
def nonData (g : Config) : List Nat :=
  generate_header g (bigtiff g) ++
  (if 1 < tile_count g then
      generate_tileoffsets g (bigtiff g) ++ generate_tilebytecounts g (bigtiff g)
   else [])

/-- All tile data in index order, as emitted by the full-body path of
`generate_tiff` (lines 504-505). -/
def tileConcat (g : Config) : List Nat :=
  ((List.range (tile_count g)).map g.tileData).flatten

/-- The complete virtual file: the body of a request without a Range header
(lines 496-505). -/
def fullFile (g : Config) : List Nat := nonData g ++ tileConcat g

/-- Trimming of one fetched tile inside the range loop of `generate_tiff`
(lines 483-492): the first tile drops `off` leading bytes, the last tile is
truncated to the remaining length. -/
def emitTile (g : Config) (start size ndl first last tile_num : Nat) : List Nat :=
  let tiledata := g.tileData tile_num
  if tile_num = first then
    let off := start - (ndl + first * tilesize g)
    if tile_num = last then (tiledata.take (off + size)).drop off
    else tiledata.drop off
  else if tile_num = last then
    tiledata.take (start + size - (ndl + last * tilesize g))
  else tiledata

/-- The tile loop of `generate_tiff` (lines 480-493): the emitted bytes, and
the list of tile indices fetched via `gettiledata`. -/
def tileLoop (g : Config) (start size : Nat) : List Nat × List Nat :=
  let ndl := dataoffset g (bigtiff g)
  let first := (start - ndl) / tilesize g
  let last := (start + size - 1 - ndl) / tilesize g
  let tiles := List.range' first (last + 1 - first)
  ((tiles.map (emitTile g start size ndl first last)).flatten, tiles)

/-- The byte-range path of `generate_tiff` (lines 444-494), after the Range
header has been parsed into `start` and `size`: returns the streamed body
bytes and the list of tile indices fetched via `gettiledata`. -/
def tiffStream (g : Config) (start size : Nat) : List Nat × List Nat :=
  let filesize := getfilesize g (bigtiff g)
  if filesize ≤ start then ([], [])
  else
    let size := if filesize ≤ start + size then filesize - start else size
    let ndl := dataoffset g (bigtiff g)
    if start < ndl then
      let nd := nonData g
      let extract := (nd.take (min (start + size) nd.length)).drop start
      if start + size ≤ ndl then (extract, [])
      else
        let rest := tileLoop g ndl (size - extract.length)
        (extract ++ rest.1, rest.2)
    else tileLoop g start size

/-- The Range-header validation of `generate_tiff` (lines 444-452): the header
value (given as its character list) must start with `bytes=`, the parsed
start must be non-negative, and the computed size `end - start + 1` must be
positive; any violation fails an assertion, rejecting the request.  `start`
and `endv` stand for the two integers parsed from the header value. -/
def rangeRequestAccepted (rangeHeader : List Char) (start endv : Int) : Bool :=
  decide (rangeHeader.take 6 = ['b', 'y', 't', 'e', 's', '=']) &&
    decide (0 ≤ start) && decide (0 < endv - start + 1)

/-- The planned segment list of the virtual file, with `(start, length)`
pairs: header, the two tile tables when `tile_count > 1`, then the tile
blocks (layout functions of lines 240-249, 384-391). -/
def segments (g : Config) : List (Nat × Nat) :=
  (0, getheadersize g (bigtiff g)) ::
  ((if 1 < tile_count g then
      [(getheadersize g (bigtiff g), tile_count g * tileoffsetsize (bigtiff g)),
       (getheadersize g (bigtiff g) + tile_count g * tileoffsetsize (bigtiff g),
        tile_count g * tileoffsetsize (bigtiff g))]
    else []) ++
   (List.range (tile_count g)).map fun i =>
     (dataoffset g (bigtiff g) + i * tilesize g, tilesize g))

/-- Contiguity of a segment list starting at a given position: each segment
begins exactly where the previous one ends. -/
def contiguousFrom : Nat → List (Nat × Nat) → Prop
  | _, [] => True
  | pos, s :: rest => s.1 = pos ∧ contiguousFrom (pos + s.2) rest

/-- Well-formedness of the external inputs: a GDAL raster has positive
dimensions and at least one band; `gettiledata` always returns exactly
`tilesize` bytes (lines 412-436 pad edge tiles to the full tile size); each
harvested GeoTIFF tag has the payload length implied by its count and type
(line 232), a payload longer than one classic offset field (the six
recognized tags hold multi-value arrays), a recognized tag id (line 226),
and the harvested tags come in strictly ascending tag-id order (a GDAL-written
TIFF directory is sorted by tag id). -/
def WF (g : Config) : Prop :=
  1 ≤ g.width ∧ 1 ≤ g.height ∧ 1 ≤ g.num_bands ∧
  (∀ i, i < tile_count g → (g.tileData i).length = tilesize g) ∧
  (∀ t ∈ g.geotifftags,
    t.payload.length = t.valrepeat * typeSize t.tagtype ∧
    long_size < t.payload.length ∧ t.tagid ∈ geotiff_tagids) ∧
  List.Chain' (fun a b => a < b) (g.geotifftags.map fun t => t.tagid)

/-- Trimming of one tile, expressed relative to the start of the tile-data
region: `a` is the offset of the requested interval within the region.
`emitTile` coincides with this (lemma `emitTile_eq_trimTile`). -/
def trimTile (f : Nat → List Nat) (ts a sz i : Nat) : List Nat :=
  if i = a / ts then
    if i = (a + sz - 1) / ts then
      ((f i).take (a - a / ts * ts + sz)).drop (a - a / ts * ts)
    else (f i).drop (a - a / ts * ts)
  else if i = (a + sz - 1) / ts then (f i).take (a + sz - (a + sz - 1) / ts * ts)
  else f i

/-- Every integer that classic mode packs into a 4-byte little-endian field
as a file offset or tag value: the first-IFD offset and the zero next-IFD
offset (lines 262, 355), each directory entry value-or-offset field
(line 255), each tile-offset table entry (line 378) and each tile-bytecount
table entry (line 382). -/
def classicPackedOffsets (g : Config) : List Nat :=
  (sig_size false + ifd_offset_size false) :: 0 ::
    (((entries g false).map fun e => e.valueOrOffset) ++
     ((List.range (tile_count g)).map fun i => dataoffset g false + tilesize g * i) ++
     ((List.range (tile_count g)).map fun _ => tilesize g))

/-- Witness raster: a single-band 512 by 512 byte raster with no
georeferencing and no nodata value (one full tile of 262144 bytes). -/
def cfgSmall : Config :=
  ⟨512, 512, 1, .GDT_Byte, false, false, [], none, fun _ => List.replicate 262144 0⟩

/-- Witness raster: a two-band byte raster of 8192 by 1 tiles whose
classic-mode size crosses 2^32, so the generator selects BigTIFF. -/
def cfgBig : Config :=
  ⟨4194304, 512, 2, .GDT_Byte, false, false, [], none,
    fun _ => List.replicate 524288 0⟩

/-! Helper lemmas: byte lengths of the generated pieces. -/

theorem packLE_length (n v : Nat) : (packLE n v).length = n := by
  simp [packLE]

theorem packLE_succ (n v : Nat) : packLE (n+1) v = v % 256 :: packLE n (v / 256) := by
  simp only [packLE, List.range_succ_eq_map, List.map_cons, List.map_map]
  refine congrArg₂ List.cons (by simp) ?_
  apply List.map_congr_left
  intro i _
  simp only [Function.comp, Nat.div_div_eq_div_mul]
  rw [pow_succ' 256 i]

theorem unpackLE_packLE (n : Nat) : ∀ v, unpackLE (packLE n v) = v % 256 ^ n := by
  induction n with
  | zero => intro v; simp [packLE, unpackLE, Nat.mod_one]
  | succ n ih =>
    intro v
    rw [packLE_succ]
    simp only [unpackLE, List.foldr_cons]
    have h1 : List.foldr (fun b acc => b + 256 * acc) 0 (packLE n (v / 256)) =
        unpackLE (packLE n (v / 256)) := rfl
    rw [h1, ih, pow_succ' 256 n, Nat.mod_mul]

theorem flatten_map_length_const {α : Type} (f : α → List Nat) (k : Nat) :
    ∀ (l : List α), (∀ x ∈ l, (f x).length = k) →
      ((l.map f).flatten).length = l.length * k := by
  intro l
  induction l with
  | nil => simp
  | cons a t ih =>
    intro h
    simp only [List.map_cons, List.flatten_cons, List.length_append, List.length_cons]
    rw [h a (by simp), ih (fun x hx => h x (by simp [hx]))]
    ring

theorem flatten_replicate_length (n : Nat) (l : List Nat) :
    ((List.replicate n l).flatten).length = n * l.length := by
  induction n with
  | zero => simp
  | succ n ih => simp [List.replicate_succ, ih]; ring

theorem write_tag_length (big : Bool) (e : TagEntry) :
    (write_tag big e).length = tagsize big := by
  cases big <;>
    simp [write_tag, packLE_length, tagsize, number_of_values_size, tag_data_or_offset_size]

theorem geoEntries_length (tags : List GeoTag) :
    ∀ off, (geoEntries tags off).length = tags.length := by
  induction tags with
  | nil => intro off; simp [geoEntries]
  | cons t rest ih => intro off; simp [geoEntries, ih]

theorem geoEntries_map_tagid (tags : List GeoTag) :
    ∀ off, (geoEntries tags off).map (fun e => e.tagid) = tags.map fun t => t.tagid := by
  induction tags with
  | nil => intro off; simp [geoEntries]
  | cons t rest ih => intro off; simp [geoEntries, ih]

theorem entries_length (g : Config) (big : Bool) :
    (entries g big).length = num_tags g := by
  unfold entries num_tags
  cases hes : extrasamples g <;> cases hnd : nodata g <;>
    simp [hes, hnd, geoEntries_length, apply_ite List.length] <;> omega

theorem tagDataBytes_length (g : Config) :
    (tagDataBytes g).length =
      (if 1 < g.num_bands then long_size * g.num_bands else 0) +
      (match extrasamples g with
       | some es => if long_size < es.length then es.length else 0
       | none => 0) +
      (g.geotifftags.map fun t => t.payload.length).sum +
      (match nodata g with
       | some nd => nd.length
       | none => 0) := by
  unfold tagDataBytes
  simp only [List.length_append]
  have h1 : (if 1 < g.num_bands then
          (List.replicate g.num_bands (packLE 4 (bitspersample g))).flatten
        else ([] : List Nat)).length =
      (if 1 < g.num_bands then long_size * g.num_bands else 0) := by
    split <;> simp [flatten_replicate_length, packLE_length, long_size, Nat.mul_comm]
  have h2 : (match extrasamples g with
        | some es => if long_size < es.length then es else []
        | none => ([] : List Nat)).length =
      (match extrasamples g with
        | some es => if long_size < es.length then es.length else 0
        | none => 0) := by
    cases extrasamples g with
    | none => rfl
    | some es => simp only; split <;> simp
  have h3 : ((g.geotifftags.map fun t => t.payload).flatten).length =
      (g.geotifftags.map fun t => t.payload.length).sum := by
    rw [List.length_flatten, List.map_map]; rfl
  have h4 : (match nodata g with
        | some nd => nd
        | none => ([] : List Nat)).length =
      (match nodata g with
        | some nd => nd.length
        | none => 0) := by
    cases nodata g <;> rfl
  rw [h1, h2, h3, h4]

theorem generate_header_length (g : Config) (big : Bool) :
    (generate_header g big).length = getheadersize g big := by
  unfold generate_header getheadersize getheadersize_without_tag_data
  rw [show ∀ a b c d e f : List Nat, a ++ b ++ c ++ d ++ e ++ f =
        a ++ (b ++ (c ++ (d ++ (e ++ f)))) from by intros; simp]
  simp only [List.length_append, packLE_length, tagDataBytes_length, sig_size,
    flatten_map_length_const (write_tag big) (tagsize big) _
      (fun e _ => write_tag_length big e), entries_length]
  omega

theorem generate_tileoffsets_length (g : Config) (big : Bool) :
    (generate_tileoffsets g big).length = tile_count g * tag_data_or_offset_size big := by
  unfold generate_tileoffsets
  rw [flatten_map_length_const _ (tag_data_or_offset_size big) _
    (fun i _ => packLE_length _ _)]
  simp

theorem generate_tilebytecounts_length (g : Config) (big : Bool) :
    (generate_tilebytecounts g big).length = tile_count g * tag_data_or_offset_size big := by
  unfold generate_tilebytecounts
  rw [flatten_map_length_const _ (tag_data_or_offset_size big) _
    (fun i _ => packLE_length _ _)]
  simp

theorem tileoffsetsize_eq_tdo (big : Bool) :
    tileoffsetsize big = tag_data_or_offset_size big := by cases big <;> rfl

theorem nonData_length (g : Config) : (nonData g).length = dataoffset g (bigtiff g) := by
  unfold nonData dataoffset
  cases Nat.lt_or_ge 1 (tile_count g) with
  | inl h =>
    simp [h, generate_header_length, generate_tileoffsets_length,
      generate_tilebytecounts_length, tileoffsetsize_eq_tdo]
    ring
  | inr h =>
    have : ¬ (1 < tile_count g) := by omega
    simp [this, generate_header_length]

theorem tileConcat_length (g : Config)
    (h : ∀ i, i < tile_count g → (g.tileData i).length = tilesize g) :
    (tileConcat g).length = tile_count g * tilesize g := by
  unfold tileConcat
  rw [flatten_map_length_const g.tileData (tilesize g) _
    (fun i hi => h i (List.mem_range.mp hi))]
  simp

theorem fullFile_length (g : Config)
    (h : ∀ i, i < tile_count g → (g.tileData i).length = tilesize g) :
    (fullFile g).length = getfilesize g (bigtiff g) := by
  unfold fullFile getfilesize
  simp [nonData_length, tileConcat_length g h]

/-! Helper lemmas: slicing a concatenation of fixed-length blocks. -/

theorem div_bounds (a ts : Nat) (hts : 0 < ts) :
    a / ts * ts ≤ a ∧ a < a / ts * ts + ts := by
  refine ⟨Nat.div_mul_le_self a ts, ?_⟩
  have h1 := Nat.div_add_mod a ts
  have h2 := Nat.mod_lt a hts
  have h3 : ts * (a / ts) = a / ts * ts := Nat.mul_comm ts (a / ts)
  omega

theorem flatten_drop_block (f : Nat → List Nat) (ts : Nat) :
    ∀ (first n s off : Nat), first < n → off < ts →
      (∀ i ∈ List.range' s n, (f i).length = ts) →
      (((List.range' s n).map f).flatten).drop (first * ts + off) =
        (f (s + first)).drop off ++
          ((List.range' (s + first + 1) (n - (first + 1))).map f).flatten := by
  intro first
  induction first with
  | zero =>
    intro n s off hn hoff hlen
    obtain ⟨m, rfl⟩ : ∃ m, n = m + 1 := ⟨n - 1, by omega⟩
    rw [List.range'_succ]
    simp only [List.map_cons, List.flatten_cons, Nat.zero_mul, Nat.zero_add]
    rw [List.drop_append_of_le_length
      (by rw [hlen s (by rw [List.mem_range'_1]; omega)]; omega)]
    simp
  | succ first ih =>
    intro n s off hn hoff hlen
    obtain ⟨m, rfl⟩ : ∃ m, n = m + 1 := ⟨n - 1, by omega⟩
    rw [List.range'_succ]
    simp only [List.map_cons, List.flatten_cons]
    have hls : (f s).length = ts := hlen s (by rw [List.mem_range'_1]; omega)
    have harith : (first + 1) * ts + off = (f s).length + (first * ts + off) := by
      rw [hls]; ring
    rw [harith, List.drop_append]
    rw [ih m (s+1) off (by omega) hoff
      (fun i hi => hlen i (by rw [List.mem_range'_1] at hi ⊢; omega))]
    have h1 : s + 1 + first = s + (first + 1) := by omega
    have h3 : m - (first + 1) = m + 1 - (first + 1 + 1) := by omega
    rw [h1, h3]

theorem trim_flatten_eq_slice (f : Nat → List Nat) (ts n : Nat) (hts : 0 < ts)
    (hlen : ∀ i, i < n → (f i).length = ts) :
    ∀ (k a sz : Nat), 0 < sz → a + sz ≤ n * ts →
      (a + sz - 1) / ts - a / ts = k →
      ((List.range' (a / ts) ((a + sz - 1) / ts + 1 - a / ts)).map
          (trimTile f ts a sz)).flatten =
        ((((List.range n).map f).flatten).drop a).take sz := by
  intro k
  induction k with
  | zero =>
    intro a sz hsz hbound hk
    have hdb := div_bounds a ts hts
    have hdb2 := div_bounds (a + sz - 1) ts hts
    have hfl : a / ts ≤ (a + sz - 1) / ts := Nat.div_le_div_right (by omega)
    have hlast : (a + sz - 1) / ts = a / ts := by omega
    have hfn : a / ts < n := by
      refine (Nat.mul_lt_mul_right hts).mp ?_
      omega
    rw [hlast] at hdb2
    have hrange : (a + sz - 1) / ts + 1 - a / ts = 1 := by omega
    rw [hrange, show List.range' (a / ts) 1 = [a / ts] from rfl]
    simp only [List.map_cons, List.map_nil, List.flatten_cons, List.flatten_nil,
      List.append_nil]
    rw [trimTile, if_pos rfl, if_pos (by omega)]
    rw [List.range_eq_range']
    have ha : a = a / ts * ts + (a - a / ts * ts) := by omega
    conv_rhs => rw [ha]
    rw [flatten_drop_block f ts (a / ts) n 0 (a - a / ts * ts) hfn (by omega)
      (fun i hi => hlen i (by rw [List.mem_range'_1] at hi; omega))]
    rw [Nat.zero_add]
    rw [List.take_append_of_le_length
      (by rw [List.length_drop, hlen _ hfn]; omega)]
    rw [List.drop_take]
    rw [show a - a / ts * ts + sz - (a - a / ts * ts) = sz from by omega]
  | succ k ih =>
    intro a sz hsz hbound hk
    have hdb := div_bounds a ts hts
    have hdb2 := div_bounds (a + sz - 1) ts hts
    have hfl : a / ts ≤ (a + sz - 1) / ts := Nat.div_le_div_right (by omega)
    have hlt : a / ts < (a + sz - 1) / ts := by omega
    have hltn : (a + sz - 1) / ts < n := by
      refine (Nat.mul_lt_mul_right hts).mp ?_
      omega
    have hfn : a / ts < n := by omega
    have hmul : (a / ts + 1) * ts = a / ts * ts + ts := by ring
    have hmul2 : ((a + sz - 1) / ts) * ts ≥ (a / ts + 1) * ts :=
      Nat.mul_le_mul_right ts (by omega)
    have hoffsz : ts < a - a / ts * ts + sz := by omega
    have hdiva : (a / ts + 1) * ts / ts = a / ts + 1 :=
      Nat.div_eq_of_lt_le (le_refl _) ((Nat.mul_lt_mul_right hts).mpr (by omega))
    have hsz2 : (a + sz - 1) = (a / ts + 1) * ts + (sz - (ts - (a - a / ts * ts))) - 1 := by
      omega
    have hdiv2 : ((a / ts + 1) * ts + (sz - (ts - (a - a / ts * ts))) - 1) / ts =
        (a + sz - 1) / ts := by rw [← hsz2]
    -- split off the first tile of the range
    rw [show (a + sz - 1) / ts + 1 - a / ts = ((a + sz - 1) / ts - (a / ts + 1) + 1) + 1
      from by omega]
    rw [List.range'_succ]
    simp only [List.map_cons, List.flatten_cons]
    have htrim_head : trimTile f ts a sz (a / ts) = (f (a / ts)).drop (a - a / ts * ts) := by
      rw [trimTile, if_pos rfl, if_neg (by omega)]
    rw [htrim_head]
    -- the remaining tiles are trimmed exactly as for the shifted interval
    have hmap : ∀ i ∈ List.range' (a / ts + 1) ((a + sz - 1) / ts - (a / ts + 1) + 1),
        trimTile f ts a sz i =
          trimTile f ts ((a / ts + 1) * ts) (sz - (ts - (a - a / ts * ts))) i := by
      intro i hi
      rw [List.mem_range'_1] at hi
      simp only [trimTile]
      rw [hdiva, hdiv2]
      by_cases h1 : i = a / ts + 1
      · subst h1
        rw [if_neg (show ¬ (a / ts + 1 = a / ts) from by omega), if_pos rfl]
        by_cases h2 : a / ts + 1 = (a + sz - 1) / ts
        · rw [if_pos h2, if_pos h2]
          rw [show (a / ts + 1) * ts - (a / ts + 1) * ts = 0 from by omega]
          rw [List.drop_zero, Nat.zero_add]
          congr 1
          rw [← h2]
          omega
        · rw [if_neg h2, if_neg h2]
          rw [show (a / ts + 1) * ts - (a / ts + 1) * ts = 0 from by omega]
          rw [List.drop_zero]
      · rw [if_neg (show ¬ (i = a / ts) from by omega), if_neg h1]
        by_cases h2 : i = (a + sz - 1) / ts
        · rw [if_pos h2, if_pos h2]
          congr 1
          omega
        · rw [if_neg h2, if_neg h2]
    rw [List.map_congr_left hmap]
    have hkey := ih ((a / ts + 1) * ts) (sz - (ts - (a - a / ts * ts)))
      (by omega) (by omega) (by rw [hdiva, hdiv2]; omega)
    rw [hdiva, hdiv2] at hkey
    rw [show (a + sz - 1) / ts - (a / ts + 1) + 1 = (a + sz - 1) / ts + 1 - (a / ts + 1)
      from by omega]
    rw [hkey]
    -- both sides are now slices of the full concatenation
    rw [List.range_eq_range']
    have ha : a = a / ts * ts + (a - a / ts * ts) := by omega
    conv_rhs => rw [ha]
    rw [flatten_drop_block f ts (a / ts) n 0 (a - a / ts * ts) hfn (by omega)
      (fun i hi => hlen i (by rw [List.mem_range'_1] at hi; omega))]
    rw [Nat.zero_add]
    have hdrop2 : ((((List.range' 0 n).map f).flatten).drop ((a / ts + 1) * ts)) =
        ((List.range' (a / ts + 1) (n - (a / ts + 1))).map f).flatten := by
      rw [show (a / ts + 1) * ts = (a / ts + 1) * ts + 0 from by omega]
      rw [flatten_drop_block f ts (a / ts + 1) n 0 0 (by omega) hts
        (fun i hi => hlen i (by rw [List.mem_range'_1] at hi; omega))]
      rw [Nat.zero_add, List.drop_zero]
      rw [show n - (a / ts + 1) = (n - (a / ts + 1 + 1)) + 1 from by omega]
      rw [List.range'_succ]
      simp
    rw [hdrop2]
    have hlen_head : ((f (a / ts)).drop (a - a / ts * ts)).length =
        ts - (a - a / ts * ts) := by
      rw [List.length_drop, hlen _ hfn]
    conv_rhs => rw [show sz = ((f (a / ts)).drop (a - a / ts * ts)).length +
      (sz - (ts - (a - a / ts * ts))) from by rw [hlen_head]; omega]
    rw [List.take_append]

/-! Helper lemmas: correctness of the range streamer. -/

theorem tilesize_pos (g : Config) (h : 1 ≤ g.num_bands) : 0 < tilesize g := by
  unfold tilesize tile_width tile_height bitspersample
  cases g.datatype <;> simp [GetDataTypeSize] <;> omega

theorem tile_count_pos (g : Config) (hw : 1 ≤ g.width) (hh : 1 ≤ g.height) :
    0 < tile_count g := by
  unfold tile_count tile_x_count tile_y_count tile_width tile_height
  have h1 : 0 < (g.width + 512 - 1) / 512 := by omega
  have h2 : 0 < (g.height + 512 - 1) / 512 := by omega
  exact Nat.mul_pos h1 h2

theorem dataoffset_pos (g : Config) (big : Bool) : 0 < dataoffset g big := by
  unfold dataoffset getheadersize getheadersize_without_tag_data sig_size TIFF_SIGNATURE
  cases big <;> simp

theorem emitTile_eq_trimTile (g : Config) (start size d i : Nat) (hd : d ≤ start) :
    emitTile g start size d ((start - d) / tilesize g)
        ((start + size - 1 - d) / tilesize g) i =
      trimTile g.tileData (tilesize g) (start - d) size i := by
  simp only [emitTile, trimTile]
  have h1 : start + size - 1 - d = start - d + size - 1 := by omega
  rw [h1]
  have h2 : start - (d + (start - d) / tilesize g * tilesize g) =
      start - d - (start - d) / tilesize g * tilesize g := by omega
  have h3 : start + size - (d + (start - d + size - 1) / tilesize g * tilesize g) =
      start - d + size - (start - d + size - 1) / tilesize g * tilesize g := by omega
  rw [h2, h3]

theorem tileLoop_eq_slice (g : Config)
    (hlen : ∀ i, i < tile_count g → (g.tileData i).length = tilesize g)
    (hts : 0 < tilesize g)
    (start size : Nat) (hd : dataoffset g (bigtiff g) ≤ start) (hsz : 1 ≤ size)
    (hbound : start + size ≤ getfilesize g (bigtiff g)) :
    (tileLoop g start size).1 =
      ((tileConcat g).drop (start - dataoffset g (bigtiff g))).take size := by
  have hfs : getfilesize g (bigtiff g) =
      dataoffset g (bigtiff g) + tile_count g * tilesize g := rfl
  simp only [tileLoop, tileConcat]
  rw [List.map_congr_left
    (fun i _ => emitTile_eq_trimTile g start size (dataoffset g (bigtiff g)) i hd)]
  rw [show start + size - 1 - dataoffset g (bigtiff g) =
    start - dataoffset g (bigtiff g) + size - 1 from by omega]
  exact trim_flatten_eq_slice g.tileData (tilesize g) (tile_count g) hts hlen
    ((start - dataoffset g (bigtiff g) + size - 1) / tilesize g -
      (start - dataoffset g (bigtiff g)) / tilesize g)
    (start - dataoffset g (bigtiff g)) size hsz (by omega) rfl

theorem tiffStream_eq_slice (g : Config) (hwf : WF g) (start size : Nat)
    (hsz : 1 ≤ size) (hstart : start < getfilesize g (bigtiff g)) :
    (tiffStream g start size).1 =
      ((fullFile g).drop start).take (min size (getfilesize g (bigtiff g) - start)) := by
  obtain ⟨hw, hh, hb, htd, hgt, hch⟩ := hwf
  have hts : 0 < tilesize g := tilesize_pos g hb
  have hndlen : (nonData g).length = dataoffset g (bigtiff g) := nonData_length g
  have htclen : (tileConcat g).length = tile_count g * tilesize g :=
    tileConcat_length g htd
  have hfs : getfilesize g (bigtiff g) =
      dataoffset g (bigtiff g) + tile_count g * tilesize g := rfl
  simp only [tiffStream, fullFile]
  rw [if_neg (show ¬ (getfilesize g (bigtiff g) ≤ start) from by omega)]
  have hsz2 : (if getfilesize g (bigtiff g) ≤ start + size then
      getfilesize g (bigtiff g) - start else size) =
      min size (getfilesize g (bigtiff g) - start) := by
    split <;> omega
  rw [hsz2]
  have hkmin : 1 ≤ min size (getfilesize g (bigtiff g) - start) := by omega
  have hkub : min size (getfilesize g (bigtiff g) - start) ≤
      getfilesize g (bigtiff g) - start := by omega
  by_cases hpre : start < dataoffset g (bigtiff g)
  · rw [if_pos hpre]
    by_cases hend : start + min size (getfilesize g (bigtiff g) - start) ≤
        dataoffset g (bigtiff g)
    · rw [if_pos hend]
      have h5 : min (start + min size (getfilesize g (bigtiff g) - start))
          (nonData g).length =
          start + min size (getfilesize g (bigtiff g) - start) := by
        rw [hndlen]; omega
      rw [h5, List.drop_take,
        show start + min size (getfilesize g (bigtiff g) - start) - start =
          min size (getfilesize g (bigtiff g) - start) from by omega]
      rw [List.drop_append_of_le_length (by omega)]
      rw [List.take_append_of_le_length (by rw [List.length_drop]; omega)]
    · rw [if_neg hend]
      have h5 : min (start + min size (getfilesize g (bigtiff g) - start))
          (nonData g).length = (nonData g).length := by
        rw [hndlen]; omega
      rw [h5, List.take_length]
      rw [tileLoop_eq_slice g htd hts (dataoffset g (bigtiff g)) _ (le_refl _)
        (by rw [List.length_drop]; omega)
        (by rw [List.length_drop]; omega)]
      rw [Nat.sub_self, List.drop_zero]
      rw [List.drop_append_of_le_length (by omega)]
      conv_rhs => rw [show min size (getfilesize g (bigtiff g) - start) =
        ((nonData g).drop start).length +
          (min size (getfilesize g (bigtiff g) - start) -
            ((nonData g).drop start).length) from by rw [List.length_drop]; omega]
      rw [List.take_append]
  · rw [if_neg hpre]
    rw [tileLoop_eq_slice g htd hts start _ (by omega) hkmin (by omega)]
    rw [show start = (nonData g).length +
      (start - dataoffset g (bigtiff g)) from by rw [hndlen]; omega]
    rw [List.drop_append]
    rw [show (nonData g).length + (start - dataoffset g (bigtiff g)) -
      dataoffset g (bigtiff g) = start - dataoffset g (bigtiff g) from by
        rw [hndlen]; omega]

theorem tileLoop_mem_bounds (g : Config) (start size : Nat) (hts : 0 < tilesize g)
    (hd : dataoffset g (bigtiff g) ≤ start) (hsz : 1 ≤ size) :
    ∀ i ∈ (tileLoop g start size).2,
      dataoffset g (bigtiff g) + i * tilesize g < start + size ∧
        start < dataoffset g (bigtiff g) + (i + 1) * tilesize g := by
  intro i hi
  simp only [tileLoop] at hi
  rw [List.mem_range'_1] at hi
  have hfl : (start - dataoffset g (bigtiff g)) / tilesize g ≤
      (start + size - 1 - dataoffset g (bigtiff g)) / tilesize g :=
    Nat.div_le_div_right (by omega)
  have hdb := div_bounds (start - dataoffset g (bigtiff g)) (tilesize g) hts
  have hdb2 := div_bounds (start + size - 1 - dataoffset g (bigtiff g)) (tilesize g) hts
  constructor
  · have h1 : i ≤ (start + size - 1 - dataoffset g (bigtiff g)) / tilesize g := by omega
    have h2 : i * tilesize g ≤
        (start + size - 1 - dataoffset g (bigtiff g)) / tilesize g * tilesize g :=
      Nat.mul_le_mul_right _ h1
    omega
  · have h1 : (start - dataoffset g (bigtiff g)) / tilesize g ≤ i := by omega
    have h2 : ((start - dataoffset g (bigtiff g)) / tilesize g + 1) * tilesize g ≤
        (i + 1) * tilesize g := Nat.mul_le_mul_right _ (by omega)
    have h3 : ((start - dataoffset g (bigtiff g)) / tilesize g + 1) * tilesize g =
        (start - dataoffset g (bigtiff g)) / tilesize g * tilesize g + tilesize g := by
      ring
    omega

theorem tiffStream_fetched (g : Config) (hwf : WF g) (start size : Nat)
    (hsz : 1 ≤ size) (hstart : start < getfilesize g (bigtiff g)) :
    ∀ i ∈ (tiffStream g start size).2,
      dataoffset g (bigtiff g) + i * tilesize g <
          start + min size (getfilesize g (bigtiff g) - start) ∧
        start < dataoffset g (bigtiff g) + (i + 1) * tilesize g := by
  obtain ⟨hw, hh, hb, htd, hgt, hch⟩ := hwf
  have hts : 0 < tilesize g := tilesize_pos g hb
  have hndlen : (nonData g).length = dataoffset g (bigtiff g) := nonData_length g
  simp only [tiffStream]
  rw [if_neg (show ¬ (getfilesize g (bigtiff g) ≤ start) from by omega)]
  have hsz2 : (if getfilesize g (bigtiff g) ≤ start + size then
      getfilesize g (bigtiff g) - start else size) =
      min size (getfilesize g (bigtiff g) - start) := by
    split <;> omega
  rw [hsz2]
  by_cases hpre : start < dataoffset g (bigtiff g)
  · rw [if_pos hpre]
    by_cases hend : start + min size (getfilesize g (bigtiff g) - start) ≤
        dataoffset g (bigtiff g)
    · rw [if_pos hend]
      intro i hi
      exact absurd hi (List.not_mem_nil i)
    · rw [if_neg hend]
      have h5 : min (start + min size (getfilesize g (bigtiff g) - start))
          (nonData g).length = (nonData g).length := by
        rw [hndlen]; omega
      rw [h5, List.take_length]
      intro i hi
      have hb2 := tileLoop_mem_bounds g (dataoffset g (bigtiff g))
        (min size (getfilesize g (bigtiff g) - start) - ((nonData g).drop start).length)
        hts (le_refl _) (by rw [List.length_drop]; omega) i hi
      rw [List.length_drop, hndlen] at hb2
      constructor
      · have := hb2.1
        omega
      · have := hb2.2
        omega
  · rw [if_neg hpre]
    intro i hi
    exact tileLoop_mem_bounds g start
      (min size (getfilesize g (bigtiff g) - start)) hts (by omega) (by omega) i hi

theorem tiffStream_past_eof (g : Config) (start size : Nat)
    (h : getfilesize g (bigtiff g) ≤ start) : tiffStream g start size = ([], []) := by
  simp only [tiffStream]
  rw [if_pos h]

theorem tiffStream_zero_size (g : Config) (hfs : 0 < getfilesize g (bigtiff g)) :
    (tiffStream g 0 0).1 = [] := by
  simp only [tiffStream]
  rw [if_neg (show ¬ (getfilesize g (bigtiff g) ≤ 0) from by omega)]
  rw [if_neg (show ¬ (getfilesize g (bigtiff g) ≤ 0 + 0) from by omega)]
  rw [if_pos (dataoffset_pos g (bigtiff g))]
  rw [if_pos (show 0 + 0 ≤ dataoffset g (bigtiff g) from by omega)]
  simp

/-- Claim C1: for a byte-range request with `start < file_size` and a positive
requested size, the streamed body is exactly `min(size, file_size - start)`
bytes, equal to bytes `[start, start + min(size, file_size - start))` of the
full virtual file in file order; every tile fetched via `gettiledata`
overlaps the clamped requested interval; and for `start ≥ file_size` the body
is empty. -/
theorem claim_C1 (g : Config) (hwf : WF g) (start size : Nat) (hsz : 1 ≤ size) :
    (getfilesize g (bigtiff g) ≤ start → (tiffStream g start size).1 = []) ∧
    (start < getfilesize g (bigtiff g) →
      (tiffStream g start size).1 =
        ((fullFile g).drop start).take
          (min size (getfilesize g (bigtiff g) - start)) ∧
      (tiffStream g start size).1.length =
        min size (getfilesize g (bigtiff g) - start) ∧
      ∀ i ∈ (tiffStream g start size).2,
        dataoffset g (bigtiff g) + i * tilesize g <
            start + min size (getfilesize g (bigtiff g) - start) ∧
          start < dataoffset g (bigtiff g) + (i + 1) * tilesize g) := by
  constructor
  · intro h
    rw [tiffStream_past_eof g start size h]
  · intro h
    refine ⟨tiffStream_eq_slice g hwf start size hsz h, ?_,
      tiffStream_fetched g hwf start size hsz h⟩
    rw [tiffStream_eq_slice g hwf start size hsz h]
    rw [List.length_take, List.length_drop, fullFile_length g hwf.2.2.2.1]
    omega

theorem claim_C1_witness :
    WF cfgSmall ∧ 1 ≤ 5 ∧
      (getfilesize cfgSmall (bigtiff cfgSmall) ≤ 3 →
        (tiffStream cfgSmall 3 5).1 = []) ∧
      (3 < getfilesize cfgSmall (bigtiff cfgSmall) →
        (tiffStream cfgSmall 3 5).1 =
          ((fullFile cfgSmall).drop 3).take
            (min 5 (getfilesize cfgSmall (bigtiff cfgSmall) - 3)) ∧
        (tiffStream cfgSmall 3 5).1.length =
          min 5 (getfilesize cfgSmall (bigtiff cfgSmall) - 3) ∧
        ∀ i ∈ (tiffStream cfgSmall 3 5).2,
          dataoffset cfgSmall (bigtiff cfgSmall) + i * tilesize cfgSmall <
              3 + min 5 (getfilesize cfgSmall (bigtiff cfgSmall) - 3) ∧
            3 < dataoffset cfgSmall (bigtiff cfgSmall) + (i + 1) * tilesize cfgSmall) := by
  have hwf : WF cfgSmall := by
    refine ⟨by decide, by decide, by decide, ?_, ?_, ?_⟩
    · intro i _
      have h1 : cfgSmall.tileData i = List.replicate 262144 0 := rfl
      rw [h1, List.length_replicate]
      decide
    · intro t ht
      rw [show cfgSmall.geotifftags = [] from rfl] at ht
      exact absurd ht (List.not_mem_nil t)
    · rw [show cfgSmall.geotifftags = [] from rfl]
      simp
  exact ⟨hwf, by omega, claim_C1 cfgSmall hwf 3 5 (by omega)⟩

/-- Claim C3: for every split point `k < file_size`, streaming `[0, k)` and
then `[k, file_size)` produces exactly the bytes of streaming the whole file. -/
theorem claim_C3 (g : Config) (hwf : WF g) (k : Nat)
    (hk : k < getfilesize g (bigtiff g)) :
    (tiffStream g 0 k).1 ++ (tiffStream g k (getfilesize g (bigtiff g) - k)).1 =
      (tiffStream g 0 (getfilesize g (bigtiff g))).1 := by
  have h2 : (tiffStream g k (getfilesize g (bigtiff g) - k)).1 =
      ((fullFile g).drop k).take
        (min (getfilesize g (bigtiff g) - k) (getfilesize g (bigtiff g) - k)) :=
    tiffStream_eq_slice g hwf k (getfilesize g (bigtiff g) - k) (by omega) hk
  have h3 : (tiffStream g 0 (getfilesize g (bigtiff g))).1 =
      ((fullFile g).drop 0).take
        (min (getfilesize g (bigtiff g)) (getfilesize g (bigtiff g) - 0)) :=
    tiffStream_eq_slice g hwf 0 (getfilesize g (bigtiff g)) (by omega) (by omega)
  by_cases hk0 : k = 0
  · subst hk0
    rw [tiffStream_zero_size g (by omega), List.nil_append, Nat.sub_zero]
  · have h1 : (tiffStream g 0 k).1 =
        ((fullFile g).drop 0).take (min k (getfilesize g (bigtiff g) - 0)) :=
      tiffStream_eq_slice g hwf 0 k (by omega) (by omega)
    rw [h1, h2, h3, List.drop_zero]
    rw [show min k (getfilesize g (bigtiff g) - 0) = k from by omega]
    rw [show min (getfilesize g (bigtiff g) - k) (getfilesize g (bigtiff g) - k) =
      getfilesize g (bigtiff g) - k from by omega]
    rw [show min (getfilesize g (bigtiff g)) (getfilesize g (bigtiff g) - 0) =
      k + (getfilesize g (bigtiff g) - k) from by omega]
    rw [List.take_add]

theorem claim_C3_witness :
    WF cfgSmall ∧ 100 < getfilesize cfgSmall (bigtiff cfgSmall) ∧
      (tiffStream cfgSmall 0 100).1 ++
          (tiffStream cfgSmall 100 (getfilesize cfgSmall (bigtiff cfgSmall) - 100)).1 =
        (tiffStream cfgSmall 0 (getfilesize cfgSmall (bigtiff cfgSmall))).1 := by
  have hwf : WF cfgSmall := by
    refine ⟨by decide, by decide, by decide, ?_, ?_, ?_⟩
    · intro i _
      have h1 : cfgSmall.tileData i = List.replicate 262144 0 := rfl
      rw [h1, List.length_replicate]
      decide
    · intro t ht
      rw [show cfgSmall.geotifftags = [] from rfl] at ht
      exact absurd ht (List.not_mem_nil t)
    · rw [show cfgSmall.geotifftags = [] from rfl]
      simp
  refine ⟨hwf, by decide, claim_C3 cfgSmall hwf 100 (by decide)⟩

/-! Mode selection (claim C2). -/

theorem num_tags_ge_12 (g : Config) : 12 ≤ num_tags g := by
  unfold num_tags
  omega

theorem getfilesize_lt_big (g : Config) : getfilesize g false < getfilesize g true := by
  have hnt := num_tags_ge_12 g
  unfold getfilesize dataoffset getheadersize getheadersize_without_tag_data
  unfold sig_size TIFF_SIGNATURE ifd_offset_size num_tags_size tagsize tileoffsetsize
  by_cases hc : 1 < tile_count g <;> simp [hc] <;> omega

/-- Claim C2: classic mode is selected exactly when the classic-mode total
file size is below `2^32`; otherwise the generator switches to BigTIFF, and
the single recomputed BigTIFF layout is a fixed point: it is strictly larger
than the classic estimate and still at least `2^32`, so re-checking the
threshold would not change the mode again. -/
theorem claim_C2 (g : Config) :
    (bigtiff g = false ↔ getfilesize g false < 2 ^ 32) ∧
    (bigtiff g = true →
      getfilesize g false < getfilesize g true ∧
        2 ^ 32 ≤ getfilesize g true) := by
  constructor
  · unfold bigtiff
    simp [decide_eq_false_iff_not]
  · intro h
    have h2 : 2 ^ 32 ≤ getfilesize g false := by
      unfold bigtiff at h
      simpa using h
    exact ⟨getfilesize_lt_big g, le_trans h2 (le_of_lt (getfilesize_lt_big g))⟩

/-! Range-header validation (claim C9). -/

/-- Claim C9: a malformed Range value (no `bytes=` start, negative parsed
start, or non-positive computed size `end - start + 1`) fails the validation
of lines 446-452, so the reference behavior rejects the request before any
bytes are streamed. -/
theorem claim_C9 (h : List Char) (start endv : Int) :
    (rangeRequestAccepted h start endv = true ↔
      (h.take 6 = ['b', 'y', 't', 'e', 's', '='] ∧ 0 ≤ start ∧
        0 < endv - start + 1)) ∧
    ((h.take 6 ≠ ['b', 'y', 't', 'e', 's', '='] ∨ start < 0 ∨
        endv - start + 1 ≤ 0) →
      rangeRequestAccepted h start endv = false) := by
  have hiff : rangeRequestAccepted h start endv = true ↔
      (h.take 6 = ['b', 'y', 't', 'e', 's', '='] ∧ 0 ≤ start ∧
        0 < endv - start + 1) := by
    simp [rangeRequestAccepted, Bool.and_eq_true, decide_eq_true_eq, and_assoc]
  refine ⟨hiff, fun hm => ?_⟩
  rcases Bool.eq_false_or_eq_true (rangeRequestAccepted h start endv) with ht | hf
  · exfalso
    obtain ⟨h1, h2, h3⟩ := hiff.mp ht
    rcases hm with hx | hx | hx
    · exact hx h1
    · omega
    · omega
  · exact hf

theorem claim_C9_witness :
    ((['z', 'y', 't', 'e', 's', '=', '0', '-', '9'].take 6 ≠
        ['b', 'y', 't', 'e', 's', '=']) ∨ (0 : Int) < 0 ∨
        ((9 : Int) - 0 + 1) ≤ 0) ∧
      rangeRequestAccepted ['z', 'y', 't', 'e', 's', '=', '0', '-', '9'] 0 9 =
        false := by
  have hm : ((['z', 'y', 't', 'e', 's', '=', '0', '-', '9'].take 6 ≠
      ['b', 'y', 't', 'e', 's', '=']) ∨ (0 : Int) < 0 ∨
      ((9 : Int) - 0 + 1) ≤ 0) := Or.inl (by decide)
  exact ⟨hm, (claim_C9 ['z', 'y', 't', 'e', 's', '=', '0', '-', '9'] 0 9).2 hm⟩

/-! Tile-offset and tile-bytecount tables (claim C6). -/

theorem packTable_slice (w : Nat) (hw : 0 < w) (v : Nat → Nat) (n i : Nat)
    (hi : i < n) :
    ((((List.range n).map fun j => packLE w (v j)).flatten).drop (i * w)).take w =
      packLE w (v i) := by
  rw [List.range_eq_range']
  rw [show i * w = i * w + 0 from by omega]
  rw [flatten_drop_block (fun j => packLE w (v j)) w i n 0 0 hi hw
    (fun j _ => packLE_length w (v j))]
  rw [Nat.zero_add, List.drop_zero]
  rw [List.take_append_of_le_length (by simp [packLE_length])]
  exact List.take_of_length_le (by simp [packLE_length])

/-- Claim C6: entry `i` of the tile-offset table is exactly the mode-width
little-endian packing of `tile_data_region.start + i * tile_size`, entry
`i` of the tile-bytecount table is the packing of `tile_size`, and whenever
those values fit the field width, decoding the entries recovers them. -/
theorem claim_C6 (g : Config) (i : Nat) (hi : i < tile_count g) :
    ((generate_tileoffsets g (bigtiff g)).drop
        (i * tag_data_or_offset_size (bigtiff g))).take
        (tag_data_or_offset_size (bigtiff g)) =
      packLE (tag_data_or_offset_size (bigtiff g))
        (dataoffset g (bigtiff g) + tilesize g * i) ∧
    ((generate_tilebytecounts g (bigtiff g)).drop
        (i * tag_data_or_offset_size (bigtiff g))).take
        (tag_data_or_offset_size (bigtiff g)) =
      packLE (tag_data_or_offset_size (bigtiff g)) (tilesize g) ∧
    (dataoffset g (bigtiff g) + tilesize g * i <
        256 ^ tag_data_or_offset_size (bigtiff g) →
      unpackLE (((generate_tileoffsets g (bigtiff g)).drop
          (i * tag_data_or_offset_size (bigtiff g))).take
          (tag_data_or_offset_size (bigtiff g))) =
        dataoffset g (bigtiff g) + tilesize g * i) ∧
    (tilesize g < 256 ^ tag_data_or_offset_size (bigtiff g) →
      unpackLE (((generate_tilebytecounts g (bigtiff g)).drop
          (i * tag_data_or_offset_size (bigtiff g))).take
          (tag_data_or_offset_size (bigtiff g))) = tilesize g) := by
  have hw : 0 < tag_data_or_offset_size (bigtiff g) := by
    unfold tag_data_or_offset_size
    cases bigtiff g <;> simp
  have h1 : ((generate_tileoffsets g (bigtiff g)).drop
      (i * tag_data_or_offset_size (bigtiff g))).take
      (tag_data_or_offset_size (bigtiff g)) =
      packLE (tag_data_or_offset_size (bigtiff g))
        (dataoffset g (bigtiff g) + tilesize g * i) := by
    unfold generate_tileoffsets
    exact packTable_slice (tag_data_or_offset_size (bigtiff g)) hw
      (fun j => dataoffset g (bigtiff g) + tilesize g * j) (tile_count g) i hi
  have h2 : ((generate_tilebytecounts g (bigtiff g)).drop
      (i * tag_data_or_offset_size (bigtiff g))).take
      (tag_data_or_offset_size (bigtiff g)) =
      packLE (tag_data_or_offset_size (bigtiff g)) (tilesize g) := by
    unfold generate_tilebytecounts
    exact packTable_slice (tag_data_or_offset_size (bigtiff g)) hw
      (fun _ => tilesize g) (tile_count g) i hi
  refine ⟨h1, h2, ?_, ?_⟩
  · intro hfit
    rw [h1, unpackLE_packLE]
    exact Nat.mod_eq_of_lt hfit
  · intro hfit
    rw [h2, unpackLE_packLE]
    exact Nat.mod_eq_of_lt hfit

theorem claim_C6_witness :
    0 < tile_count cfgSmall ∧
      (((generate_tileoffsets cfgSmall (bigtiff cfgSmall)).drop
          (0 * tag_data_or_offset_size (bigtiff cfgSmall))).take
          (tag_data_or_offset_size (bigtiff cfgSmall)) =
        packLE (tag_data_or_offset_size (bigtiff cfgSmall))
          (dataoffset cfgSmall (bigtiff cfgSmall) + tilesize cfgSmall * 0) ∧
      ((generate_tilebytecounts cfgSmall (bigtiff cfgSmall)).drop
          (0 * tag_data_or_offset_size (bigtiff cfgSmall))).take
          (tag_data_or_offset_size (bigtiff cfgSmall)) =
        packLE (tag_data_or_offset_size (bigtiff cfgSmall)) (tilesize cfgSmall) ∧
      (dataoffset cfgSmall (bigtiff cfgSmall) + tilesize cfgSmall * 0 <
          256 ^ tag_data_or_offset_size (bigtiff cfgSmall) →
        unpackLE (((generate_tileoffsets cfgSmall (bigtiff cfgSmall)).drop
            (0 * tag_data_or_offset_size (bigtiff cfgSmall))).take
            (tag_data_or_offset_size (bigtiff cfgSmall))) =
          dataoffset cfgSmall (bigtiff cfgSmall) + tilesize cfgSmall * 0) ∧
      (tilesize cfgSmall < 256 ^ tag_data_or_offset_size (bigtiff cfgSmall) →
        unpackLE (((generate_tilebytecounts cfgSmall (bigtiff cfgSmall)).drop
            (0 * tag_data_or_offset_size (bigtiff cfgSmall))).take
            (tag_data_or_offset_size (bigtiff cfgSmall))) = tilesize cfgSmall)) :=
  ⟨by decide, claim_C6 cfgSmall 0 (by decide)⟩

theorem claim_C2_witness :
    bigtiff cfgBig = true ∧
      (getfilesize cfgBig false < getfilesize cfgBig true ∧
        2 ^ 32 ≤ getfilesize cfgBig true) :=
  ⟨by decide, (claim_C2 cfgBig).2 (by decide)⟩

/-! Segment layout (claim C5). -/

theorem sum_map_const {α : Type} (l : List α) (c : Nat) :
    (l.map fun _ => c).sum = l.length * c := by
  induction l with
  | nil => simp
  | cons a t ih => simp [ih]; ring

theorem contiguousFrom_tiles (d ts : Nat) :
    ∀ (n j : Nat),
      contiguousFrom (d + j * ts) ((List.range' j n).map fun i => (d + i * ts, ts)) := by
  intro n
  induction n with
  | zero => intro j; simp [contiguousFrom]
  | succ n ih =>
    intro j
    rw [List.range'_succ]
    simp only [List.map_cons, contiguousFrom]
    refine ⟨trivial, ?_⟩
    have h1 : d + j * ts + ts = d + (j + 1) * ts := by ring
    rw [h1]
    exact ih (j + 1)

theorem contiguousFrom_segments (g : Config) :
    contiguousFrom 0 (segments g) := by
  unfold segments
  simp only [contiguousFrom]
  refine ⟨trivial, ?_⟩
  by_cases hc : 1 < tile_count g
  · rw [if_pos hc]
    simp only [List.cons_append, List.nil_append, contiguousFrom]
    refine ⟨by omega, by omega, ?_⟩
    rw [show ([] : List (Nat × Nat)).append ((List.range (tile_count g)).map
      fun i => (dataoffset g (bigtiff g) + i * tilesize g, tilesize g)) =
      (List.range (tile_count g)).map
        fun i => (dataoffset g (bigtiff g) + i * tilesize g, tilesize g) from rfl]
    have hd : 0 + getheadersize g (bigtiff g) + tile_count g * tileoffsetsize (bigtiff g) +
        tile_count g * tileoffsetsize (bigtiff g) =
        dataoffset g (bigtiff g) + 0 * tilesize g := by
      unfold dataoffset
      rw [if_pos hc]
      ring
    rw [hd, List.range_eq_range']
    exact contiguousFrom_tiles (dataoffset g (bigtiff g)) (tilesize g) (tile_count g) 0
  · rw [if_neg hc]
    simp only [List.nil_append]
    have hd : 0 + getheadersize g (bigtiff g) =
        dataoffset g (bigtiff g) + 0 * tilesize g := by
      unfold dataoffset
      rw [if_neg hc]
      ring
    rw [hd, List.range_eq_range']
    exact contiguousFrom_tiles (dataoffset g (bigtiff g)) (tilesize g) (tile_count g) 0

theorem segments_sum (g : Config) :
    ((segments g).map fun s => s.2).sum = getfilesize g (bigtiff g) := by
  unfold segments
  simp only [List.map_cons, List.map_append, List.sum_cons, List.sum_append,
    List.map_map]
  have htiles : (((List.range (tile_count g)).map
      ((fun s => s.2) ∘ fun i => ((dataoffset g (bigtiff g) + i * tilesize g,
        tilesize g) : Nat × Nat))).sum) = tile_count g * tilesize g := by
    have h1 : ((fun (s : Nat × Nat) => s.2) ∘ fun i =>
        ((dataoffset g (bigtiff g) + i * tilesize g, tilesize g) : Nat × Nat)) =
        fun _ => tilesize g := rfl
    rw [h1, sum_map_const, List.length_range]
  rw [htiles]
  by_cases hc : 1 < tile_count g
  · rw [if_pos hc]
    unfold getfilesize dataoffset
    rw [if_pos hc]
    simp
    ring
  · rw [if_neg hc]
    unfold getfilesize dataoffset
    rw [if_neg hc]
    simp

/-- Claim C5: the generated header is exactly `getheadersize()` bytes, each
tile table is `tile_count` fixed-width entries, and the planned segments
(header, the two tables when `tile_count > 1`, then `tile_count` tile blocks
of `tilesize` bytes) are contiguous from offset 0 with no gaps or overlaps
and sum to `getfilesize()`, which is also the byte length of the full
virtual file. -/
theorem claim_C5 (g : Config) (hwf : WF g) :
    (generate_header g (bigtiff g)).length = getheadersize g (bigtiff g) ∧
    (generate_tileoffsets g (bigtiff g)).length =
      tile_count g * tileoffsetsize (bigtiff g) ∧
    (generate_tilebytecounts g (bigtiff g)).length =
      tile_count g * tileoffsetsize (bigtiff g) ∧
    contiguousFrom 0 (segments g) ∧
    ((segments g).map fun s => s.2).sum = getfilesize g (bigtiff g) ∧
    (fullFile g).length = getfilesize g (bigtiff g) := by
  refine ⟨generate_header_length g (bigtiff g), ?_, ?_,
    contiguousFrom_segments g,
    segments_sum g, fullFile_length g hwf.2.2.2.1⟩
  · rw [generate_tileoffsets_length, tileoffsetsize_eq_tdo]
  · rw [generate_tilebytecounts_length, tileoffsetsize_eq_tdo]

theorem claim_C5_witness :
    WF cfgSmall ∧
      ((generate_header cfgSmall (bigtiff cfgSmall)).length =
        getheadersize cfgSmall (bigtiff cfgSmall) ∧
      (generate_tileoffsets cfgSmall (bigtiff cfgSmall)).length =
        tile_count cfgSmall * tileoffsetsize (bigtiff cfgSmall) ∧
      (generate_tilebytecounts cfgSmall (bigtiff cfgSmall)).length =
        tile_count cfgSmall * tileoffsetsize (bigtiff cfgSmall) ∧
      contiguousFrom 0 (segments cfgSmall) ∧
      ((segments cfgSmall).map fun s => s.2).sum =
        getfilesize cfgSmall (bigtiff cfgSmall) ∧
      (fullFile cfgSmall).length = getfilesize cfgSmall (bigtiff cfgSmall)) := by
  have hwf : WF cfgSmall := by
    refine ⟨by decide, by decide, by decide, ?_, ?_, ?_⟩
    · intro i _
      have h1 : cfgSmall.tileData i = List.replicate 262144 0 := rfl
      rw [h1, List.length_replicate]
      decide
    · intro t ht
      rw [show cfgSmall.geotifftags = [] from rfl] at ht
      exact absurd ht (List.not_mem_nil t)
    · rw [show cfgSmall.geotifftags = [] from rfl]
      simp
  exact ⟨hwf, claim_C5 cfgSmall hwf⟩

/-! Tag ordering (claim C8). -/

theorem entries_map_tagid (g : Config) (big : Bool) :
    (entries g big).map (fun e => e.tagid) =
      [256, 257, 258, 259, 262, 277, 284, 322, 323, 324, 325] ++
      (if (extrasamples g).isSome then [338] else []) ++ [339] ++
      (g.geotifftags.map fun t => t.tagid) ++
      (if (nodata g).isSome then [42113] else []) := by
  cases hes : extrasamples g <;> cases hnd : nodata g <;>
    simp [entries, hes, hnd, geoEntries_map_tagid, apply_ite (List.map fun e =>
      TagEntry.tagid e)] <;>
    split <;> simp

theorem chain'_lt_cons (lo : Nat) (ids : List Nat)
    (hch : List.Chain' (fun a b => a < b) ids) (hin : ∀ x ∈ ids, lo < x) :
    List.Chain' (fun a b => a < b) (lo :: ids) := by
  rw [show lo :: ids = [lo] ++ ids from rfl, List.chain'_append]
  refine ⟨List.chain'_singleton lo, hch, ?_⟩
  intro x hx y hy
  simp at hx
  subst hx
  exact hin y (List.mem_of_mem_head? hy)

theorem chain'_lt_sandwich (lo hi : Nat) (ids : List Nat) (hlh : lo < hi)
    (hch : List.Chain' (fun a b => a < b) ids)
    (hin : ∀ x ∈ ids, lo < x ∧ x < hi) :
    List.Chain' (fun a b => a < b) (lo :: ids ++ [hi]) := by
  rw [show lo :: ids ++ [hi] = ([lo] ++ ids) ++ [hi] from by simp]
  rw [List.chain'_append]
  refine ⟨?_, List.chain'_singleton hi, ?_⟩
  · rw [List.chain'_append]
    refine ⟨List.chain'_singleton lo, hch, ?_⟩
    intro x hx y hy
    simp at hx
    subst hx
    exact (hin y (List.mem_of_mem_head? hy)).1
  · intro x hx y hy
    simp at hy
    subst hy
    have hx2 := List.mem_of_mem_getLast? hx
    rcases List.mem_append.mp hx2 with h | h
    · simp at h
      omega
    · exact (hin x h).2

/-- Claim C8: the directory entries appear in strictly ascending tag-id
order: the mandatory tags 256-339 (with conditional ExtraSamples 338), then
the harvested GeoTIFF tags (33550-34737), then the conditional NoData tag
42113. -/
theorem claim_C8 (g : Config) (hwf : WF g) (big : Bool) :
    List.Chain' (fun a b => a < b) ((entries g big).map fun e => e.tagid) := by
  obtain ⟨hw, hh, hb, htd, hgt, hch⟩ := hwf
  have hbounds : ∀ x ∈ (g.geotifftags.map fun t => t.tagid),
      339 < x ∧ x < 42113 := by
    intro x hx
    rw [List.mem_map] at hx
    obtain ⟨t, ht, rfl⟩ := hx
    have h1 := (hgt t ht).2.2
    simp [geotiff_tagids] at h1
    omega
  have hsand : List.Chain' (fun a b => a < b)
      (339 :: (g.geotifftags.map fun t => t.tagid) ++ [42113]) :=
    chain'_lt_sandwich 339 42113 _ (by omega) hch hbounds
  have hconsg : List.Chain' (fun a b => a < b)
      (339 :: (g.geotifftags.map fun t => t.tagid)) :=
    chain'_lt_cons 339 _ hch (fun x hx => (hbounds x hx).1)
  rw [entries_map_tagid]
  by_cases h1 : (extrasamples g).isSome = true <;>
    by_cases h2 : (nodata g).isSome = true <;>
      simp only [h1, h2, if_pos, if_neg, if_true, if_false,
        Bool.not_eq_true] <;>
      simp only [List.cons_append, List.nil_append, List.append_nil,
        List.chain'_cons] <;>
      (repeat' apply And.intro) <;>
      first
        | omega
        | exact hsand
        | exact hconsg

theorem claim_C8_witness :
    WF cfgSmall ∧
      List.Chain' (fun a b => a < b)
        ((entries cfgSmall (bigtiff cfgSmall)).map fun e => e.tagid) := by
  have hwf : WF cfgSmall := by
    refine ⟨by decide, by decide, by decide, ?_, ?_, ?_⟩
    · intro i _
      have h1 : cfgSmall.tileData i = List.replicate 262144 0 := rfl
      rw [h1, List.length_replicate]
      decide
    · intro t ht
      rw [show cfgSmall.geotifftags = [] from rfl] at ht
      exact absurd ht (List.not_mem_nil t)
    · rw [show cfgSmall.geotifftags = [] from rfl]
      simp
  exact ⟨hwf, claim_C8 cfgSmall hwf (bigtiff cfgSmall)⟩

/-! Boundedness of classic-mode packed values (claim C10). -/

theorem tilesize_ge (g : Config) : 262144 * g.num_bands ≤ tilesize g := by
  unfold tilesize tile_width tile_height bitspersample
  cases g.datatype <;> simp [GetDataTypeSize] <;> omega

theorem bitspersample_le (g : Config) : bitspersample g ≤ 128 := by
  unfold bitspersample
  cases g.datatype <;> simp [GetDataTypeSize]

theorem sampleformat_le (g : Config) : sampleformat g ≤ 6 := by
  unfold sampleformat
  cases g.datatype <;> simp

theorem photometric_le (g : Config) : photometric g ≤ 2 := by
  unfold photometric
  split <;> omega

theorem raster_dims_le (g : Config) (hw : 1 ≤ g.width) (hh : 1 ≤ g.height)
    (hb : 1 ≤ g.num_bands) :
    g.width ≤ tile_count g * tilesize g ∧
      g.height ≤ tile_count g * tilesize g ∧
        g.num_bands ≤ tile_count g * tilesize g := by
  have hcx : g.width ≤ tile_x_count g * 512 := by
    have h1 := div_bounds (g.width + 512 - 1) 512 (by omega)
    unfold tile_x_count tile_width
    omega
  have hcy : g.height ≤ tile_y_count g * 512 := by
    have h1 := div_bounds (g.height + 512 - 1) 512 (by omega)
    unfold tile_y_count tile_height
    omega
  have hts := tilesize_ge g
  have hwh : g.width * g.height ≤ tile_x_count g * 512 * (tile_y_count g * 512) :=
    Nat.mul_le_mul hcx hcy
  have h2 : tile_x_count g * 512 * (tile_y_count g * 512) =
      tile_count g * 262144 := by
    unfold tile_count
    ring
  have h3 : g.width * g.height * g.num_bands ≤ tile_count g * tilesize g := by
    calc g.width * g.height * g.num_bands
        ≤ tile_count g * 262144 * g.num_bands := by
          rw [← h2]
          exact Nat.mul_le_mul_right _ hwh
      _ = tile_count g * (262144 * g.num_bands) := by ring
      _ ≤ tile_count g * tilesize g := Nat.mul_le_mul_left _ hts
  have hwd : g.width ≤ g.width * g.height * g.num_bands := by
    have h4 : g.width * 1 * 1 ≤ g.width * g.height * g.num_bands :=
      Nat.mul_le_mul (Nat.mul_le_mul (le_refl _) hh) hb
    simpa using h4
  have hht : g.height ≤ g.width * g.height * g.num_bands := by
    have h4 : 1 * g.height * 1 ≤ g.width * g.height * g.num_bands :=
      Nat.mul_le_mul (Nat.mul_le_mul hw (le_refl _)) hb
    simpa using h4
  have hnb : g.num_bands ≤ g.width * g.height * g.num_bands := by
    have h4 : 1 * 1 * g.num_bands ≤ g.width * g.height * g.num_bands :=
      Nat.mul_le_mul (Nat.mul_le_mul hw hh) (le_refl _)
    simpa using h4
  exact ⟨le_trans hwd h3, le_trans hht h3, le_trans hnb h3⟩

theorem geoEntries_valueOrOffset_le (tags : List GeoTag) :
    ∀ off e, e ∈ geoEntries tags off →
      e.valueOrOffset ≤ off + (tags.map fun t => t.payload.length).sum := by
  induction tags with
  | nil =>
    intro off e he
    simp [geoEntries] at he
  | cons t rest ih =>
    intro off e he
    simp only [geoEntries, List.mem_cons] at he
    rcases he with rfl | he
    · dsimp only
      omega
    · have h1 := ih (off + t.payload.length) e he
      simp only [List.map_cons, List.sum_cons]
      omega

theorem first_extrasample_le (g : Config) : first_extrasample g ≤ 2 := by
  unfold first_extrasample
  split <;> omega

theorem entries_valueOrOffset_le (g : Config) (hwf : WF g) (big : Bool) :
    ∀ e ∈ entries g big, e.valueOrOffset ≤ getfilesize g big := by
  obtain ⟨hw, hh, hb, htd, hgt, hch⟩ := hwf
  have hcount := tile_count_pos g hw hh
  have hdims := raster_dims_le g hw hh hb
  have htsge := tilesize_ge g
  have hts262 : 262144 ≤ tilesize g := by
    have h1 : 262144 * 1 ≤ 262144 * g.num_bands := Nat.mul_le_mul_left _ hb
    omega
  have hcts : tilesize g ≤ tile_count g * tilesize g :=
    Nat.le_mul_of_pos_left (tilesize g) hcount
  have hfsdef : getfilesize g big =
      dataoffset g big + tile_count g * tilesize g := rfl
  have hdodef : dataoffset g big = getheadersize g big +
      (if 1 < tile_count g then 2 * tile_count g * tileoffsetsize big else 0) := rfl
  have hfs2 : getheadersize g big ≤ getfilesize g big := by omega
  have hfs3 : dataoffset g big ≤ getfilesize g big := by omega
  have hwfs : g.width ≤ getfilesize g big := by omega
  have hhfs : g.height ≤ getfilesize g big := by omega
  have hnbfs : g.num_bands ≤ getfilesize g big := by omega
  have h512 : 512 ≤ getfilesize g big := by omega
  have hbps := bitspersample_le g
  have hphot := photometric_le g
  have hsf := sampleformat_le g
  have htw : tile_width = 512 := rfl
  have hth : tile_height = 512 := rfl
  have htd1eq : (if 1 < g.num_bands then
      getheadersize_without_tag_data g big + long_size * g.num_bands
      else getheadersize_without_tag_data g big) =
      getheadersize_without_tag_data g big +
        (if 1 < g.num_bands then long_size * g.num_bands else 0) := by
    split <;> simp
  have htbl : tile_count g ≠ 1 →
      getheadersize g big + (tile_count g * tileoffsetsize big +
        tile_count g * tileoffsetsize big) ≤ getfilesize g big := by
    intro hne
    have h2 : 1 < tile_count g := by omega
    have h3 : dataoffset g big = getheadersize g big +
        2 * tile_count g * tileoffsetsize big := by
      rw [hdodef, if_pos h2]
    have h4 : 2 * tile_count g * tileoffsetsize big =
        tile_count g * tileoffsetsize big + tile_count g * tileoffsetsize big := by
      ring
    omega
  intro e he
  cases hes : extrasamples g with
  | none =>
    cases hnd : nodata g with
    | none =>
      simp only [entries, hes, hnd] at he
      simp only [List.mem_cons, List.mem_append, List.mem_singleton,
        List.mem_nil_iff, List.nil_append, List.append_nil, or_false] at he
      have hhs : getheadersize g big = getheadersize_without_tag_data g big +
          (if 1 < g.num_bands then long_size * g.num_bands else 0) +
          0 +
          (g.geotifftags.map fun t => t.payload.length).sum + 0 := by
        unfold getheadersize
        rw [hes, hnd]
      rcases he with rfl | rfl | rfl | rfl | rfl | rfl | rfl | rfl | rfl | rfl | rfl | rfl | he
      · dsimp only
        omega
      · dsimp only
        omega
      · dsimp only
        split <;> omega
      · dsimp only
        omega
      · dsimp only
        omega
      · dsimp only
        omega
      · dsimp only
        omega
      · dsimp only
        omega
      · dsimp only
        omega
      · dsimp only
        split
        · omega
        · rename_i hne
          have h5 := htbl hne
          omega
      · dsimp only
        split
        · omega
        · rename_i hne
          have h5 := htbl hne
          omega
      · dsimp only
        omega
      · have h1 := geoEntries_valueOrOffset_le g.geotifftags _ e he
        omega
    | some nd =>
      simp only [entries, hes, hnd] at he
      simp only [List.mem_cons, List.mem_append, List.mem_singleton,
        List.mem_nil_iff, List.nil_append, List.append_nil, or_false] at he
      have hhs : getheadersize g big = getheadersize_without_tag_data g big +
          (if 1 < g.num_bands then long_size * g.num_bands else 0) +
          0 +
          (g.geotifftags.map fun t => t.payload.length).sum + nd.length := by
        unfold getheadersize
        rw [hes, hnd]
      rcases he with rfl | rfl | rfl | rfl | rfl | rfl | rfl | rfl | rfl | rfl | rfl | rfl | he | rfl
      · dsimp only
        omega
      · dsimp only
        omega
      · dsimp only
        split <;> omega
      · dsimp only
        omega
      · dsimp only
        omega
      · dsimp only
        omega
      · dsimp only
        omega
      · dsimp only
        omega
      · dsimp only
        omega
      · dsimp only
        split
        · omega
        · rename_i hne
          have h5 := htbl hne
          omega
      · dsimp only
        split
        · omega
        · rename_i hne
          have h5 := htbl hne
          omega
      · dsimp only
        omega
      · have h1 := geoEntries_valueOrOffset_le g.geotifftags _ e he
        omega
      · dsimp only
        omega
  | some es =>
    have heslen : es.length = 4 + (num_extrasamples g - 1) * 4 := by
      unfold extrasamples at hes
      split at hes
      · rw [Option.some.injEq] at hes
        rw [← hes]
        simp [packLE_length, flatten_replicate_length]
      · exact absurd hes (by simp)
    have hesval : ¬ (long_size < es.length) → unpackLE es ≤ 2 := by
      intro hlt
      unfold extrasamples at hes
      split at hes
      · rw [Option.some.injEq] at hes
        have h0 : num_extrasamples g - 1 = 0 := by
          rw [heslen] at hlt
          unfold long_size at hlt
          omega
        rw [← hes, h0]
        simp only [List.replicate, List.flatten_nil, List.append_nil]
        rw [unpackLE_packLE]
        exact le_trans (Nat.mod_le _ _) (first_extrasample_le g)
      · exact absurd hes (by simp)
    by_cases hoo : long_size < es.length
    · cases hnd : nodata g with
      | none =>
        simp only [entries, hes, hnd] at he
        rw [if_pos hoo, if_pos hoo] at he
        simp only [List.mem_cons, List.mem_append, List.mem_singleton,
          List.mem_nil_iff, List.nil_append, List.append_nil, or_false] at he
        have hhs : getheadersize g big = getheadersize_without_tag_data g big +
            (if 1 < g.num_bands then long_size * g.num_bands else 0) +
            es.length +
            (g.geotifftags.map fun t => t.payload.length).sum + 0 := by
          unfold getheadersize
          simp only [hes, hnd, hoo, if_true]
        rcases he with rfl | rfl | rfl | rfl | rfl | rfl | rfl | rfl | rfl | rfl | rfl | rfl | rfl | he
        · dsimp only
          omega
        · dsimp only
          omega
        · dsimp only
          split <;> omega
        · dsimp only
          omega
        · dsimp only
          omega
        · dsimp only
          omega
        · dsimp only
          omega
        · dsimp only
          omega
        · dsimp only
          omega
        · dsimp only
          split
          · omega
          · rename_i hne
            have h5 := htbl hne
            omega
        · dsimp only
          split
          · omega
          · rename_i hne
            have h5 := htbl hne
            omega
        · dsimp only
          omega
        · dsimp only
          omega
        · have h1 := geoEntries_valueOrOffset_le g.geotifftags _ e he
          omega
      | some nd =>
        simp only [entries, hes, hnd] at he
        rw [if_pos hoo, if_pos hoo] at he
        simp only [List.mem_cons, List.mem_append, List.mem_singleton,
          List.mem_nil_iff, List.nil_append, List.append_nil, or_false] at he
        have hhs : getheadersize g big = getheadersize_without_tag_data g big +
            (if 1 < g.num_bands then long_size * g.num_bands else 0) +
            es.length +
            (g.geotifftags.map fun t => t.payload.length).sum + nd.length := by
          unfold getheadersize
          simp only [hes, hnd, hoo, if_true]
        rcases he with rfl | rfl | rfl | rfl | rfl | rfl | rfl | rfl | rfl | rfl | rfl | rfl | rfl | he | rfl
        · dsimp only
          omega
        · dsimp only
          omega
        · dsimp only
          split <;> omega
        · dsimp only
          omega
        · dsimp only
          omega
        · dsimp only
          omega
        · dsimp only
          omega
        · dsimp only
          omega
        · dsimp only
          omega
        · dsimp only
          split
          · omega
          · rename_i hne
            have h5 := htbl hne
            omega
        · dsimp only
          split
          · omega
          · rename_i hne
            have h5 := htbl hne
            omega
        · dsimp only
          omega
        · dsimp only
          omega
        · have h1 := geoEntries_valueOrOffset_le g.geotifftags _ e he
          omega
        · dsimp only
          omega
    · cases hnd : nodata g with
      | none =>
        simp only [entries, hes, hnd] at he
        rw [if_neg hoo, if_neg hoo] at he
        simp only [List.mem_cons, List.mem_append, List.mem_singleton,
          List.mem_nil_iff, List.nil_append, List.append_nil, or_false] at he
        have hhs : getheadersize g big = getheadersize_without_tag_data g big +
            (if 1 < g.num_bands then long_size * g.num_bands else 0) +
            0 +
            (g.geotifftags.map fun t => t.payload.length).sum + 0 := by
          unfold getheadersize
          simp only [hes, hnd, hoo, if_false]
        rcases he with rfl | rfl | rfl | rfl | rfl | rfl | rfl | rfl | rfl | rfl | rfl | rfl | rfl | he
        · dsimp only
          omega
        · dsimp only
          omega
        · dsimp only
          split <;> omega
        · dsimp only
          omega
        · dsimp only
          omega
        · dsimp only
          omega
        · dsimp only
          omega
        · dsimp only
          omega
        · dsimp only
          omega
        · dsimp only
          split
          · omega
          · rename_i hne
            have h5 := htbl hne
            omega
        · dsimp only
          split
          · omega
          · rename_i hne
            have h5 := htbl hne
            omega
        · dsimp only
          have h5 := hesval hoo
          omega
        · dsimp only
          omega
        · have h1 := geoEntries_valueOrOffset_le g.geotifftags _ e he
          omega
      | some nd =>
        simp only [entries, hes, hnd] at he
        rw [if_neg hoo, if_neg hoo] at he
        simp only [List.mem_cons, List.mem_append, List.mem_singleton,
          List.mem_nil_iff, List.nil_append, List.append_nil, or_false] at he
        have hhs : getheadersize g big = getheadersize_without_tag_data g big +
            (if 1 < g.num_bands then long_size * g.num_bands else 0) +
            0 +
            (g.geotifftags.map fun t => t.payload.length).sum + nd.length := by
          unfold getheadersize
          simp only [hes, hnd, hoo, if_false]
        rcases he with rfl | rfl | rfl | rfl | rfl | rfl | rfl | rfl | rfl | rfl | rfl | rfl | rfl | he | rfl
        · dsimp only
          omega
        · dsimp only
          omega
        · dsimp only
          split <;> omega
        · dsimp only
          omega
        · dsimp only
          omega
        · dsimp only
          omega
        · dsimp only
          omega
        · dsimp only
          omega
        · dsimp only
          omega
        · dsimp only
          split
          · omega
          · rename_i hne
            have h5 := htbl hne
            omega
        · dsimp only
          split
          · omega
          · rename_i hne
            have h5 := htbl hne
            omega
        · dsimp only
          have h5 := hesval hoo
          omega
        · dsimp only
          omega
        · have h1 := geoEntries_valueOrOffset_le g.geotifftags _ e he
          omega
        · dsimp only
          omega

/-- Claim C10: in classic mode every integer packed into a 4-byte
little-endian field (first-IFD and next-IFD offsets, every directory entry
value-or-offset, every tile-offset and tile-bytecount table entry) is
strictly below `2^32`, because the constructor forces BigTIFF whenever the
classic-mode file size reaches `2^32` and every such value is bounded by the
file size. -/
theorem claim_C10 (g : Config) (hwf : WF g) (hbig : bigtiff g = false) :
    ∀ v ∈ classicPackedOffsets g, v < 2 ^ 32 := by
  have hfs : getfilesize g false < 2 ^ 32 := by
    unfold bigtiff at hbig
    simp [decide_eq_false_iff_not] at hbig
    omega
  have hcount := tile_count_pos g hwf.1 hwf.2.1
  have hts : 0 < tilesize g := tilesize_pos g hwf.2.2.1
  have hcts : tilesize g ≤ tile_count g * tilesize g :=
    Nat.le_mul_of_pos_left (tilesize g) hcount
  have hfsdef : getfilesize g false =
      dataoffset g false + tile_count g * tilesize g := rfl
  intro v hv
  simp only [classicPackedOffsets, List.mem_cons, List.mem_append,
    List.mem_map, List.mem_range] at hv
  rcases hv with rfl | rfl | (⟨e, he, rfl⟩ | ⟨i, hi, rfl⟩) | ⟨i, hi, rfl⟩
  · unfold sig_size TIFF_SIGNATURE ifd_offset_size
    simp
  · omega
  · have h1 := entries_valueOrOffset_le g hwf false e he
    omega
  · have h1 : tilesize g * (i + 1) ≤ tilesize g * tile_count g :=
      Nat.mul_le_mul_left _ (by omega)
    have h2 : tilesize g * tile_count g = tile_count g * tilesize g := by ring
    have h3 : tilesize g * (i + 1) = tilesize g * i + tilesize g := by ring
    omega
  · omega

theorem claim_C10_witness :
    WF cfgSmall ∧ bigtiff cfgSmall = false ∧
      ∀ v ∈ classicPackedOffsets cfgSmall, v < 2 ^ 32 := by
  have hwf : WF cfgSmall := by
    refine ⟨by decide, by decide, by decide, ?_, ?_, ?_⟩
    · intro i _
      have h1 : cfgSmall.tileData i = List.replicate 262144 0 := rfl
      rw [h1, List.length_replicate]
      decide
    · intro t ht
      rw [show cfgSmall.geotifftags = [] from rfl] at ht
      exact absurd ht (List.not_mem_nil t)
    · rw [show cfgSmall.geotifftags = [] from rfl]
      simp
  exact ⟨hwf, by decide, claim_C10 cfgSmall hwf (by decide)⟩

/-! Single-tile inlining (claim C7). -/

/-- Claim C7: when `tile_count = 1` no separate tile-offset or tile-bytecount
table is materialized in the virtual file (the non-tile region is the header
alone); the TileOffsets entry holds the tile-data region start inline and the
TileByteCounts entry holds `tilesize` inline; and the single-band 512 by 512
byte raster with no georeferencing and no nodata has exactly the 12 mandatory
tags, all inline. -/
theorem claim_C7 (g : Config) (h1 : tile_count g = 1) :
    nonData g = generate_header g (bigtiff g) ∧
    (⟨324, tileoffsetype (bigtiff g), 1, dataoffset g (bigtiff g), true⟩ : TagEntry) ∈
      entries g (bigtiff g) ∧
    (⟨325, tileoffsetype (bigtiff g), 1, tilesize g, true⟩ : TagEntry) ∈
      entries g (bigtiff g) ∧
    num_tags cfgSmall = 12 ∧ tile_count cfgSmall = 1 ∧
    entries cfgSmall (bigtiff cfgSmall) =
      [⟨256, 4, 1, 512, true⟩, ⟨257, 4, 1, 512, true⟩, ⟨258, 4, 1, 8, true⟩,
       ⟨259, 4, 1, 1, true⟩, ⟨262, 4, 1, 1, true⟩, ⟨277, 4, 1, 1, true⟩,
       ⟨284, 4, 1, 1, true⟩, ⟨322, 4, 1, 512, true⟩, ⟨323, 4, 1, 512, true⟩,
       ⟨324, 4, 1, 158, true⟩, ⟨325, 4, 1, 262144, true⟩,
       ⟨339, 4, 1, 1, true⟩] := by
  refine ⟨?_, ?_, ?_, by decide, by decide, by decide⟩
  · unfold nonData
    rw [if_neg (by omega), List.append_nil]
  · simp only [entries]
    rw [h1]
    simp
  · simp only [entries]
    rw [h1]
    simp

theorem claim_C7_witness :
    tile_count cfgSmall = 1 ∧
      (nonData cfgSmall = generate_header cfgSmall (bigtiff cfgSmall) ∧
      (⟨324, tileoffsetype (bigtiff cfgSmall), 1,
          dataoffset cfgSmall (bigtiff cfgSmall), true⟩ : TagEntry) ∈
        entries cfgSmall (bigtiff cfgSmall) ∧
      (⟨325, tileoffsetype (bigtiff cfgSmall), 1, tilesize cfgSmall, true⟩ :
          TagEntry) ∈ entries cfgSmall (bigtiff cfgSmall) ∧
      num_tags cfgSmall = 12 ∧ tile_count cfgSmall = 1 ∧
      entries cfgSmall (bigtiff cfgSmall) =
        [⟨256, 4, 1, 512, true⟩, ⟨257, 4, 1, 512, true⟩, ⟨258, 4, 1, 8, true⟩,
         ⟨259, 4, 1, 1, true⟩, ⟨262, 4, 1, 1, true⟩, ⟨277, 4, 1, 1, true⟩,
         ⟨284, 4, 1, 1, true⟩, ⟨322, 4, 1, 512, true⟩, ⟨323, 4, 1, 512, true⟩,
         ⟨324, 4, 1, 158, true⟩, ⟨325, 4, 1, 262144, true⟩,
         ⟨339, 4, 1, 1, true⟩]) :=
  ⟨by decide, claim_C7 cfgSmall (by decide)⟩

/-! Inline versus out-of-line placement (claim C4). -/

theorem slice_at (L P Q R : List Nat) (h : L = P ++ (Q ++ R)) (off n : Nat)
    (hoff : off = P.length) (hn : n = Q.length) :
    (L.drop off).take n = Q := by
  subst h hoff hn
  rw [List.drop_left, List.take_left]

theorem headerPre_length (g : Config) (big : Bool) :
    (headerPre g big).length = getheadersize_without_tag_data g big := by
  unfold headerPre getheadersize_without_tag_data
  simp only [List.length_append, packLE_length, sig_size,
    flatten_map_length_const (write_tag big) (tagsize big) _
      (fun e _ => write_tag_length big e), entries_length]

theorem generate_header_decomp (g : Config) (big : Bool) :
    generate_header g big = headerPre g big ++ tagDataBytes g := rfl

theorem nonData_decomp (g : Config) :
    nonData g = headerPre g (bigtiff g) ++
      ((if 1 < g.num_bands then
          (List.replicate g.num_bands (packLE 4 (bitspersample g))).flatten
        else []) ++
       ((match extrasamples g with
         | some es => if long_size < es.length then es else []
         | none => []) ++
        ((g.geotifftags.map fun t => t.payload).flatten ++
         ((match nodata g with
           | some nd => nd
           | none => []) ++
          (if 1 < tile_count g then
            generate_tileoffsets g (bigtiff g) ++ generate_tilebytecounts g (bigtiff g)
          else []))))) := by
  rw [nonData, generate_header_decomp, tagDataBytes]
  simp [List.append_assoc]

theorem bpsLen_eq (g : Config) :
    (if 1 < g.num_bands then
        (List.replicate g.num_bands (packLE 4 (bitspersample g))).flatten
      else ([] : List Nat)).length =
      (if 1 < g.num_bands then long_size * g.num_bands else 0) := by
  split <;> simp [flatten_replicate_length, packLE_length, long_size, Nat.mul_comm]

theorem esLen_eq (g : Config) :
    (match extrasamples g with
      | some es => if long_size < es.length then es else []
      | none => ([] : List Nat)).length =
      (match extrasamples g with
       | some es => if long_size < es.length then es.length else 0
       | none => 0) := by
  cases extrasamples g with
  | none => rfl
  | some es => simp only; split <;> simp

theorem geoFlatten_len (g : Config) :
    ((g.geotifftags.map fun t => t.payload).flatten).length =
      (g.geotifftags.map fun t => t.payload.length).sum := by
  rw [List.length_flatten, List.map_map]
  rfl

theorem bps_slice (g : Config) (hnb : 1 < g.num_bands) :
    ((nonData g).drop (getheadersize_without_tag_data g (bigtiff g))).take
        (4 * g.num_bands) =
      (List.replicate g.num_bands (packLE 4 (bitspersample g))).flatten := by
  have hdec : nonData g = headerPre g (bigtiff g) ++
      ((List.replicate g.num_bands (packLE 4 (bitspersample g))).flatten ++
       ((match extrasamples g with
         | some es => if long_size < es.length then es else []
         | none => []) ++
        ((g.geotifftags.map fun t => t.payload).flatten ++
         ((match nodata g with
           | some nd => nd
           | none => []) ++
          (if 1 < tile_count g then
            generate_tileoffsets g (bigtiff g) ++ generate_tilebytecounts g (bigtiff g)
          else []))))) := by
    rw [nonData_decomp, if_pos hnb]
  refine slice_at (nonData g) _ _ _ hdec _ _
    (headerPre_length g (bigtiff g)).symm ?_
  rw [flatten_replicate_length, packLE_length]
  ring

theorem es_slice (g : Config) (es : List Nat) (hes : extrasamples g = some es)
    (hoo : long_size < es.length) :
    ((nonData g).drop (getheadersize_without_tag_data g (bigtiff g) +
        (if 1 < g.num_bands then long_size * g.num_bands else 0))).take
        es.length = es := by
  have hdec : nonData g = (headerPre g (bigtiff g) ++
      (if 1 < g.num_bands then
          (List.replicate g.num_bands (packLE 4 (bitspersample g))).flatten
        else [])) ++
      (es ++
        ((g.geotifftags.map fun t => t.payload).flatten ++
         ((match nodata g with
           | some nd => nd
           | none => []) ++
          (if 1 < tile_count g then
            generate_tileoffsets g (bigtiff g) ++ generate_tilebytecounts g (bigtiff g)
          else [])))) := by
    rw [nonData_decomp, hes]
    simp only
    rw [if_pos hoo]
    simp [List.append_assoc]
  refine slice_at (nonData g) _ _ _ hdec _ _ ?_ rfl
  rw [List.length_append, headerPre_length, bpsLen_eq]

theorem geo_base_slice (g : Config) :
    ((nonData g).drop (getheadersize_without_tag_data g (bigtiff g) +
        (if 1 < g.num_bands then long_size * g.num_bands else 0) +
        (match extrasamples g with
         | some es => if long_size < es.length then es.length else 0
         | none => 0))).take
        ((g.geotifftags.map fun t => t.payload).flatten).length =
      (g.geotifftags.map fun t => t.payload).flatten := by
  have hdec : nonData g = (headerPre g (bigtiff g) ++
      ((if 1 < g.num_bands then
          (List.replicate g.num_bands (packLE 4 (bitspersample g))).flatten
        else []) ++
       (match extrasamples g with
        | some es => if long_size < es.length then es else []
        | none => []))) ++
      ((g.geotifftags.map fun t => t.payload).flatten ++
       ((match nodata g with
         | some nd => nd
         | none => []) ++
        (if 1 < tile_count g then
          generate_tileoffsets g (bigtiff g) ++ generate_tilebytecounts g (bigtiff g)
        else []))) := by
    rw [nonData_decomp]
    simp [List.append_assoc]
  refine slice_at (nonData g) _ _ _ hdec _ _ ?_ rfl
  simp only [List.length_append, headerPre_length, bpsLen_eq, esLen_eq]
  omega

theorem nodata_slice (g : Config) (nd : List Nat) (hnd : nodata g = some nd) :
    ((nonData g).drop (getheadersize_without_tag_data g (bigtiff g) +
        (if 1 < g.num_bands then long_size * g.num_bands else 0) +
        (match extrasamples g with
         | some es => if long_size < es.length then es.length else 0
         | none => 0) +
        (g.geotifftags.map fun t => t.payload.length).sum)).take
        nd.length = nd := by
  have hdec : nonData g = (headerPre g (bigtiff g) ++
      ((if 1 < g.num_bands then
          (List.replicate g.num_bands (packLE 4 (bitspersample g))).flatten
        else []) ++
       ((match extrasamples g with
         | some es => if long_size < es.length then es else []
         | none => []) ++
        (g.geotifftags.map fun t => t.payload).flatten))) ++
      (nd ++
        (if 1 < tile_count g then
          generate_tileoffsets g (bigtiff g) ++ generate_tilebytecounts g (bigtiff g)
        else [])) := by
    rw [nonData_decomp, hnd]
    simp [List.append_assoc]
  refine slice_at (nonData g) _ _ _ hdec _ _ ?_ rfl
  simp only [List.length_append, headerPre_length, bpsLen_eq, esLen_eq,
    geoFlatten_len]
  omega

theorem tables_slice (g : Config) (hc : 1 < tile_count g) :
    ((nonData g).drop (getheadersize g (bigtiff g))).take
        (tile_count g * tag_data_or_offset_size (bigtiff g)) =
      generate_tileoffsets g (bigtiff g) ∧
    ((nonData g).drop (getheadersize g (bigtiff g) +
        tile_count g * tag_data_or_offset_size (bigtiff g))).take
        (tile_count g * tag_data_or_offset_size (bigtiff g)) =
      generate_tilebytecounts g (bigtiff g) := by
  constructor
  · have hdec : nonData g = generate_header g (bigtiff g) ++
        (generate_tileoffsets g (bigtiff g) ++ generate_tilebytecounts g (bigtiff g)) := by
      unfold nonData
      rw [if_pos hc]
    exact slice_at (nonData g) _ _ _ hdec _ _
      (generate_header_length g (bigtiff g)).symm
      (generate_tileoffsets_length g (bigtiff g)).symm
  · have hdec : nonData g = (generate_header g (bigtiff g) ++
        generate_tileoffsets g (bigtiff g)) ++
        (generate_tilebytecounts g (bigtiff g) ++ []) := by
      unfold nonData
      rw [if_pos hc]
      simp [List.append_assoc]
    refine slice_at (nonData g) _ _ _ hdec _ _ ?_
      (generate_tilebytecounts_length g (bigtiff g)).symm
    rw [List.length_append, generate_header_length, generate_tileoffsets_length]

theorem geoEntries_slices (L : List Nat) :
    ∀ (tags : List GeoTag) (off : Nat),
      (L.drop off).take ((tags.map fun t => t.payload).flatten).length =
        (tags.map fun t => t.payload).flatten →
      ∀ e ∈ geoEntries tags off,
        ∃ t ∈ tags, e = ⟨t.tagid, t.tagtype, t.valrepeat, e.valueOrOffset, false⟩ ∧
          (L.drop e.valueOrOffset).take t.payload.length = t.payload := by
  intro tags
  induction tags with
  | nil =>
    intro off hH e he
    simp [geoEntries] at he
  | cons t rest ih =>
    intro off hH e he
    have hflat : ((t :: rest).map fun u => u.payload).flatten =
        t.payload ++ ((rest.map fun u => u.payload).flatten) := by
      simp
    rw [hflat] at hH
    simp only [geoEntries, List.mem_cons] at he
    rcases he with rfl | he
    · refine ⟨t, List.mem_cons_self t rest, rfl, ?_⟩
      have h1 := congrArg (List.take t.payload.length) hH
      rw [List.take_take] at h1
      rw [Nat.min_eq_left (by simp)] at h1
      rw [List.take_left] at h1
      exact h1
    · have hH2 : (L.drop (off + t.payload.length)).take
          ((rest.map fun u => u.payload).flatten).length =
          (rest.map fun u => u.payload).flatten := by
        have h1 := congrArg (List.drop t.payload.length) hH
        rw [List.drop_take, List.drop_drop, List.drop_left] at h1
        rw [List.length_append] at h1
        rw [show t.payload.length +
          ((rest.map fun u => u.payload).flatten).length - t.payload.length =
          ((rest.map fun u => u.payload).flatten).length from by omega] at h1
        exact h1
      obtain ⟨u, hu, he2, hsl⟩ := ih (off + t.payload.length) hH2 e he
      exact ⟨u, List.mem_cons_of_mem t hu, he2, hsl⟩

theorem find?_geo (tags : List GeoTag)
    (hch : List.Chain' (fun a b => a < b) (tags.map fun t => t.tagid)) :
    ∀ t ∈ tags, (tags.find? fun u => u.tagid == t.tagid) = some t := by
  induction tags with
  | nil =>
    intro t ht
    exact absurd ht (List.not_mem_nil t)
  | cons u rest ih =>
    intro t ht
    have hpw := List.chain'_iff_pairwise.mp hch
    rw [List.map_cons] at hpw
    have hpc := List.pairwise_cons.mp hpw
    rcases List.mem_cons.mp ht with rfl | ht2
    · exact List.find?_cons_of_pos rest (by simp)
    · have hlt : u.tagid < t.tagid :=
        hpc.1 t.tagid (List.mem_map_of_mem (fun v => v.tagid) ht2)
      rw [List.find?_cons_of_neg rest (by simp; omega)]
      exact ih (List.chain'_iff_pairwise.mpr hpc.2) t ht2

theorem typeSize_tileoffsetype (big : Bool) :
    typeSize (tileoffsetype big) = tag_data_or_offset_size big := by
  cases big <;> rfl

theorem tag_data_or_offset_size_cases (big : Bool) :
    tag_data_or_offset_size big = 4 ∨ tag_data_or_offset_size big = 8 := by
  cases big <;> simp [tag_data_or_offset_size]

theorem long_size_eq : long_size = 4 := rfl

theorem oolValue_258 (g : Config) (big : Bool) :
    oolValue g big 258 =
      (List.replicate g.num_bands (packLE 4 (bitspersample g))).flatten := by
  simp [oolValue]

theorem oolValue_324 (g : Config) (big : Bool) :
    oolValue g big 324 = generate_tileoffsets g big := by
  simp [oolValue]

theorem oolValue_325 (g : Config) (big : Bool) :
    oolValue g big 325 = generate_tilebytecounts g big := by
  simp [oolValue]

theorem oolValue_338 (g : Config) (big : Bool) (es : List Nat)
    (hes : extrasamples g = some es) : oolValue g big 338 = es := by
  simp [oolValue, hes]

theorem oolValue_42113 (g : Config) (big : Bool) (nd : List Nat)
    (hnd : nodata g = some nd) : oolValue g big 42113 = nd := by
  simp [oolValue, hnd]

/-- Claim C4 (amended): a tag value is inlined in its directory entry only if
its encoded byte length fits the mode's offset field (4 bytes classic,
8 bytes BigTIFF); in classic mode the converse also holds, so inlining is
exactly "encoded length at most 4"; in BigTIFF mode the code still compares
multi-valued tags against the 4-byte classic threshold, so 5-8 byte values
(e.g. BitsPerSample of a 2-band raster) are placed out of line even though
they would fit; and every out-of-line entry's value-or-offset field is the
absolute offset at which the value's bytes lie in the non-tile region. -/
theorem claim_C4 (g : Config) (hwf : WF g) :
    (∀ e ∈ entries g (bigtiff g), e.inlined = true →
      enclen e ≤ tag_data_or_offset_size (bigtiff g)) ∧
    (bigtiff g = false → ∀ e ∈ entries g (bigtiff g),
      (e.inlined = true ↔ enclen e ≤ tag_data_or_offset_size (bigtiff g))) ∧
    (∀ e ∈ entries g (bigtiff g), e.inlined = false →
      ((nonData g).drop e.valueOrOffset).take (enclen e) =
        oolValue g (bigtiff g) e.tagid) := by
  suffices h : ∀ e ∈ entries g (bigtiff g),
      (e.inlined = true → enclen e ≤ tag_data_or_offset_size (bigtiff g)) ∧
      (bigtiff g = false →
        (e.inlined = true ↔ enclen e ≤ tag_data_or_offset_size (bigtiff g))) ∧
      (e.inlined = false →
        ((nonData g).drop e.valueOrOffset).take (enclen e) =
          oolValue g (bigtiff g) e.tagid) by
    exact ⟨fun e he => (h e he).1, fun hb e he => (h e he).2.1 hb,
      fun e he => (h e he).2.2⟩
  obtain ⟨hw, hh, hb, htd, hgt, hch⟩ := hwf
  have hcount := tile_count_pos g hw hh
  have hw4 : 4 ≤ tag_data_or_offset_size (bigtiff g) := by
    rcases tag_data_or_offset_size_cases (bigtiff g) with h1 | h1 <;> omega
  have hclassic : bigtiff g = false →
      tag_data_or_offset_size (bigtiff g) = 4 := by
    intro h1
    rw [h1]
    rfl
  have hls := long_size_eq
  have htd1eq : (if 1 < g.num_bands then
      getheadersize_without_tag_data g (bigtiff g) + long_size * g.num_bands
      else getheadersize_without_tag_data g (bigtiff g)) =
      getheadersize_without_tag_data g (bigtiff g) +
        (if 1 < g.num_bands then long_size * g.num_bands else 0) := by
    split <;> simp
  intro e he
  cases hes : extrasamples g with
  | none =>
    cases hnd : nodata g with
    | none =>
      simp only [entries, hes, hnd] at he
      simp only [List.mem_cons, List.mem_append, List.mem_singleton,
        List.mem_nil_iff, List.nil_append, List.append_nil, or_false] at he
      have hhs : getheadersize g (bigtiff g) = getheadersize_without_tag_data g (bigtiff g) +
          (if 1 < g.num_bands then long_size * g.num_bands else 0) +
          0 +
          (g.geotifftags.map fun t => t.payload.length).sum + 0 := by
        unfold getheadersize
        rw [hes, hnd]
      have hmes : (match extrasamples g with
          | some es => if long_size < es.length then es.length else 0
          | none => 0) = 0 := by
        simp only [hes]
      have hbase := geo_base_slice g
      rw [hmes, ← htd1eq] at hbase
      rcases he with rfl | rfl | rfl | rfl | rfl | rfl | rfl | rfl | rfl | rfl | rfl | rfl | he
      · refine ⟨fun _ => ?_, fun hbig => ?_, fun hcon => by simp at hcon⟩
        · dsimp only [enclen]
          rw [show typeSize 4 = 4 from rfl]
          omega
        · rw [hclassic hbig]
          simp [enclen, typeSize]
      · refine ⟨fun _ => ?_, fun hbig => ?_, fun hcon => by simp at hcon⟩
        · dsimp only [enclen]
          rw [show typeSize 4 = 4 from rfl]
          omega
        · rw [hclassic hbig]
          simp [enclen, typeSize]
      · refine ⟨fun hin => ?_, fun hbig => ?_, fun hcon => ?_⟩
        · have h1 : g.num_bands ≤ 1 := of_decide_eq_true hin
          dsimp only [enclen]
          rw [show typeSize 4 = 4 from rfl]
          omega
        · rw [hclassic hbig]
          dsimp only [enclen]
          rw [show typeSize 4 = 4 from rfl]
          simp only [decide_eq_true_eq]
          omega
        · have h1 : ¬ (g.num_bands ≤ 1) := of_decide_eq_false hcon
          dsimp only [enclen]
          rw [if_pos (show 1 < g.num_bands from by omega)]
          rw [show typeSize 4 = 4 from rfl, Nat.mul_comm g.num_bands 4]
          rw [oolValue_258]
          exact bps_slice g (by omega)
      · refine ⟨fun _ => ?_, fun hbig => ?_, fun hcon => by simp at hcon⟩
        · dsimp only [enclen]
          rw [show typeSize 4 = 4 from rfl]
          omega
        · rw [hclassic hbig]
          simp [enclen, typeSize]
      · refine ⟨fun _ => ?_, fun hbig => ?_, fun hcon => by simp at hcon⟩
        · dsimp only [enclen]
          rw [show typeSize 4 = 4 from rfl]
          omega
        · rw [hclassic hbig]
          simp [enclen, typeSize]
      · refine ⟨fun _ => ?_, fun hbig => ?_, fun hcon => by simp at hcon⟩
        · dsimp only [enclen]
          rw [show typeSize 4 = 4 from rfl]
          omega
        · rw [hclassic hbig]
          simp [enclen, typeSize]
      · refine ⟨fun _ => ?_, fun hbig => ?_, fun hcon => by simp at hcon⟩
        · dsimp only [enclen]
          rw [show typeSize 4 = 4 from rfl]
          omega
        · rw [hclassic hbig]
          simp [enclen, typeSize]
      · refine ⟨fun _ => ?_, fun hbig => ?_, fun hcon => by simp at hcon⟩
        · dsimp only [enclen]
          rw [show typeSize 4 = 4 from rfl]
          omega
        · rw [hclassic hbig]
          simp [enclen, typeSize]
      · refine ⟨fun _ => ?_, fun hbig => ?_, fun hcon => by simp at hcon⟩
        · dsimp only [enclen]
          rw [show typeSize 4 = 4 from rfl]
          omega
        · rw [hclassic hbig]
          simp [enclen, typeSize]
      · refine ⟨fun hin => ?_, fun hbig => ?_, fun hcon => ?_⟩
        · have h1 : tile_count g = 1 := of_decide_eq_true hin
          dsimp only [enclen]
          rw [typeSize_tileoffsetype, h1, Nat.one_mul]
        · rw [hclassic hbig, hbig]
          dsimp only [enclen]
          rw [show typeSize (tileoffsetype false) = 4 from rfl]
          simp only [decide_eq_true_eq]
          omega
        · have h1 : ¬ (tile_count g = 1) := of_decide_eq_false hcon
          have hc2 : 1 < tile_count g := by omega
          dsimp only [enclen]
          rw [if_neg h1, typeSize_tileoffsetype]
          rw [oolValue_324]
          have ht1 := (tables_slice g hc2).1
          rw [hhs, ← htd1eq] at ht1
          exact ht1
      · refine ⟨fun hin => ?_, fun hbig => ?_, fun hcon => ?_⟩
        · have h1 : tile_count g = 1 := of_decide_eq_true hin
          dsimp only [enclen]
          rw [typeSize_tileoffsetype, h1, Nat.one_mul]
        · rw [hclassic hbig, hbig]
          dsimp only [enclen]
          rw [show typeSize (tileoffsetype false) = 4 from rfl]
          simp only [decide_eq_true_eq]
          omega
        · have h1 : ¬ (tile_count g = 1) := of_decide_eq_false hcon
          have hc2 : 1 < tile_count g := by omega
          dsimp only [enclen]
          rw [if_neg h1, typeSize_tileoffsetype, tileoffsetsize_eq_tdo]
          rw [oolValue_325]
          have ht2 := (tables_slice g hc2).2
          rw [hhs, ← htd1eq] at ht2
          exact ht2
      · refine ⟨fun _ => ?_, fun hbig => ?_, fun hcon => by simp at hcon⟩
        · dsimp only [enclen]
          rw [show typeSize 4 = 4 from rfl]
          omega
        · rw [hclassic hbig]
          simp [enclen, typeSize]
      · obtain ⟨t, ht, heq, hsl⟩ := geoEntries_slices (nonData g) g.geotifftags _ hbase e he
        have hplen := (hgt t ht).1
        have hp4 := (hgt t ht).2.1
        have hids := (hgt t ht).2.2
        simp [geotiff_tagids] at hids
        refine ⟨fun hin => ?_, fun hbig => ?_, fun _ => ?_⟩
        · rw [heq] at hin
          simp at hin
        · rw [hclassic hbig]
          constructor
          · intro hin
            rw [heq] at hin
            simp at hin
          · intro hle
            exfalso
            rw [heq] at hle
            dsimp only [enclen] at hle
            rw [← hplen] at hle
            omega
        · rw [heq]
          dsimp only [enclen]
          rw [← hplen]
          have hne : t.tagid ≠ 258 ∧ t.tagid ≠ 324 ∧ t.tagid ≠ 325 ∧
              t.tagid ≠ 338 ∧ t.tagid ≠ 42113 := by omega
          rw [show oolValue g (bigtiff g) t.tagid = t.payload from by
            unfold oolValue
            rw [if_neg hne.1, if_neg hne.2.1, if_neg hne.2.2.1, if_neg hne.2.2.2.1,
              if_neg hne.2.2.2.2]
            rw [find?_geo g.geotifftags hch t ht]]
          exact hsl
    | some nd =>
      simp only [entries, hes, hnd] at he
      simp only [List.mem_cons, List.mem_append, List.mem_singleton,
        List.mem_nil_iff, List.nil_append, List.append_nil, or_false] at he
      have hhs : getheadersize g (bigtiff g) = getheadersize_without_tag_data g (bigtiff g) +
          (if 1 < g.num_bands then long_size * g.num_bands else 0) +
          0 +
          (g.geotifftags.map fun t => t.payload.length).sum + nd.length := by
        unfold getheadersize
        rw [hes, hnd]
      have hmes : (match extrasamples g with
          | some es => if long_size < es.length then es.length else 0
          | none => 0) = 0 := by
        simp only [hes]
      have hbase := geo_base_slice g
      rw [hmes, ← htd1eq] at hbase
      have hnd8 : 8 ≤ nd.length := by
        unfold nodata at hnd
        obtain ⟨s, hs1, hs2⟩ := Option.map_eq_some'.mp hnd
        rw [← hs2]
        simp
      rcases he with rfl | rfl | rfl | rfl | rfl | rfl | rfl | rfl | rfl | rfl | rfl | rfl | he | rfl
      · refine ⟨fun _ => ?_, fun hbig => ?_, fun hcon => by simp at hcon⟩
        · dsimp only [enclen]
          rw [show typeSize 4 = 4 from rfl]
          omega
        · rw [hclassic hbig]
          simp [enclen, typeSize]
      · refine ⟨fun _ => ?_, fun hbig => ?_, fun hcon => by simp at hcon⟩
        · dsimp only [enclen]
          rw [show typeSize 4 = 4 from rfl]
          omega
        · rw [hclassic hbig]
          simp [enclen, typeSize]
      · refine ⟨fun hin => ?_, fun hbig => ?_, fun hcon => ?_⟩
        · have h1 : g.num_bands ≤ 1 := of_decide_eq_true hin
          dsimp only [enclen]
          rw [show typeSize 4 = 4 from rfl]
          omega
        · rw [hclassic hbig]
          dsimp only [enclen]
          rw [show typeSize 4 = 4 from rfl]
          simp only [decide_eq_true_eq]
          omega
        · have h1 : ¬ (g.num_bands ≤ 1) := of_decide_eq_false hcon
          dsimp only [enclen]
          rw [if_pos (show 1 < g.num_bands from by omega)]
          rw [show typeSize 4 = 4 from rfl, Nat.mul_comm g.num_bands 4]
          rw [oolValue_258]
          exact bps_slice g (by omega)
      · refine ⟨fun _ => ?_, fun hbig => ?_, fun hcon => by simp at hcon⟩
        · dsimp only [enclen]
          rw [show typeSize 4 = 4 from rfl]
          omega
        · rw [hclassic hbig]
          simp [enclen, typeSize]
      · refine ⟨fun _ => ?_, fun hbig => ?_, fun hcon => by simp at hcon⟩
        · dsimp only [enclen]
          rw [show typeSize 4 = 4 from rfl]
          omega
        · rw [hclassic hbig]
          simp [enclen, typeSize]
      · refine ⟨fun _ => ?_, fun hbig => ?_, fun hcon => by simp at hcon⟩
        · dsimp only [enclen]
          rw [show typeSize 4 = 4 from rfl]
          omega
        · rw [hclassic hbig]
          simp [enclen, typeSize]
      · refine ⟨fun _ => ?_, fun hbig => ?_, fun hcon => by simp at hcon⟩
        · dsimp only [enclen]
          rw [show typeSize 4 = 4 from rfl]
          omega
        · rw [hclassic hbig]
          simp [enclen, typeSize]
      · refine ⟨fun _ => ?_, fun hbig => ?_, fun hcon => by simp at hcon⟩
        · dsimp only [enclen]
          rw [show typeSize 4 = 4 from rfl]
          omega
        · rw [hclassic hbig]
          simp [enclen, typeSize]
      · refine ⟨fun _ => ?_, fun hbig => ?_, fun hcon => by simp at hcon⟩
        · dsimp only [enclen]
          rw [show typeSize 4 = 4 from rfl]
          omega
        · rw [hclassic hbig]
          simp [enclen, typeSize]
      · refine ⟨fun hin => ?_, fun hbig => ?_, fun hcon => ?_⟩
        · have h1 : tile_count g = 1 := of_decide_eq_true hin
          dsimp only [enclen]
          rw [typeSize_tileoffsetype, h1, Nat.one_mul]
        · rw [hclassic hbig, hbig]
          dsimp only [enclen]
          rw [show typeSize (tileoffsetype false) = 4 from rfl]
          simp only [decide_eq_true_eq]
          omega
        · have h1 : ¬ (tile_count g = 1) := of_decide_eq_false hcon
          have hc2 : 1 < tile_count g := by omega
          dsimp only [enclen]
          rw [if_neg h1, typeSize_tileoffsetype]
          rw [oolValue_324]
          have ht1 := (tables_slice g hc2).1
          rw [hhs, ← htd1eq] at ht1
          exact ht1
      · refine ⟨fun hin => ?_, fun hbig => ?_, fun hcon => ?_⟩
        · have h1 : tile_count g = 1 := of_decide_eq_true hin
          dsimp only [enclen]
          rw [typeSize_tileoffsetype, h1, Nat.one_mul]
        · rw [hclassic hbig, hbig]
          dsimp only [enclen]
          rw [show typeSize (tileoffsetype false) = 4 from rfl]
          simp only [decide_eq_true_eq]
          omega
        · have h1 : ¬ (tile_count g = 1) := of_decide_eq_false hcon
          have hc2 : 1 < tile_count g := by omega
          dsimp only [enclen]
          rw [if_neg h1, typeSize_tileoffsetype, tileoffsetsize_eq_tdo]
          rw [oolValue_325]
          have ht2 := (tables_slice g hc2).2
          rw [hhs, ← htd1eq] at ht2
          exact ht2
      · refine ⟨fun _ => ?_, fun hbig => ?_, fun hcon => by simp at hcon⟩
        · dsimp only [enclen]
          rw [show typeSize 4 = 4 from rfl]
          omega
        · rw [hclassic hbig]
          simp [enclen, typeSize]
      · obtain ⟨t, ht, heq, hsl⟩ := geoEntries_slices (nonData g) g.geotifftags _ hbase e he
        have hplen := (hgt t ht).1
        have hp4 := (hgt t ht).2.1
        have hids := (hgt t ht).2.2
        simp [geotiff_tagids] at hids
        refine ⟨fun hin => ?_, fun hbig => ?_, fun _ => ?_⟩
        · rw [heq] at hin
          simp at hin
        · rw [hclassic hbig]
          constructor
          · intro hin
            rw [heq] at hin
            simp at hin
          · intro hle
            exfalso
            rw [heq] at hle
            dsimp only [enclen] at hle
            rw [← hplen] at hle
            omega
        · rw [heq]
          dsimp only [enclen]
          rw [← hplen]
          have hne : t.tagid ≠ 258 ∧ t.tagid ≠ 324 ∧ t.tagid ≠ 325 ∧
              t.tagid ≠ 338 ∧ t.tagid ≠ 42113 := by omega
          rw [show oolValue g (bigtiff g) t.tagid = t.payload from by
            unfold oolValue
            rw [if_neg hne.1, if_neg hne.2.1, if_neg hne.2.2.1, if_neg hne.2.2.2.1,
              if_neg hne.2.2.2.2]
            rw [find?_geo g.geotifftags hch t ht]]
          exact hsl
      · refine ⟨fun hin => by simp at hin, fun hbig => ?_, fun _ => ?_⟩
        · rw [hclassic hbig]
          dsimp only [enclen]
          rw [show typeSize 2 = 1 from rfl, Nat.mul_one]
          constructor
          · intro h1
            simp at h1
          · intro h1
            exfalso
            omega
        · dsimp only [enclen]
          rw [show typeSize 2 = 1 from rfl, Nat.mul_one]
          rw [oolValue_42113 g (bigtiff g) nd hnd]
          have hsl2 := nodata_slice g nd hnd
          rw [hmes, ← htd1eq] at hsl2
          exact hsl2
  | some es =>
    by_cases hoo : long_size < es.length
    · cases hnd : nodata g with
      | none =>
        simp only [entries, hes, hnd] at he
        rw [if_pos hoo, if_pos hoo] at he
        simp only [List.mem_cons, List.mem_append, List.mem_singleton,
          List.mem_nil_iff, List.nil_append, List.append_nil, or_false] at he
        have hhs : getheadersize g (bigtiff g) = getheadersize_without_tag_data g (bigtiff g) +
            (if 1 < g.num_bands then long_size * g.num_bands else 0) +
            es.length +
            (g.geotifftags.map fun t => t.payload.length).sum + 0 := by
          unfold getheadersize
          simp only [hes, hnd, hoo, if_true]
        have hmes : (match extrasamples g with
            | some es => if long_size < es.length then es.length else 0
            | none => 0) = es.length := by
          simp only [hes]
          rw [if_pos hoo]
        have hbase := geo_base_slice g
        rw [hmes, ← htd1eq] at hbase
        have heslen : es.length = 4 + (num_extrasamples g - 1) * 4 := by
          unfold extrasamples at hes
          split at hes
          · rw [Option.some.injEq] at hes
            rw [← hes]
            simp [packLE_length, flatten_replicate_length]
          · exact absurd hes (by simp)
        rcases he with rfl | rfl | rfl | rfl | rfl | rfl | rfl | rfl | rfl | rfl | rfl | rfl | rfl | he
        · refine ⟨fun _ => ?_, fun hbig => ?_, fun hcon => by simp at hcon⟩
          · dsimp only [enclen]
            rw [show typeSize 4 = 4 from rfl]
            omega
          · rw [hclassic hbig]
            simp [enclen, typeSize]
        · refine ⟨fun _ => ?_, fun hbig => ?_, fun hcon => by simp at hcon⟩
          · dsimp only [enclen]
            rw [show typeSize 4 = 4 from rfl]
            omega
          · rw [hclassic hbig]
            simp [enclen, typeSize]
        · refine ⟨fun hin => ?_, fun hbig => ?_, fun hcon => ?_⟩
          · have h1 : g.num_bands ≤ 1 := of_decide_eq_true hin
            dsimp only [enclen]
            rw [show typeSize 4 = 4 from rfl]
            omega
          · rw [hclassic hbig]
            dsimp only [enclen]
            rw [show typeSize 4 = 4 from rfl]
            simp only [decide_eq_true_eq]
            omega
          · have h1 : ¬ (g.num_bands ≤ 1) := of_decide_eq_false hcon
            dsimp only [enclen]
            rw [if_pos (show 1 < g.num_bands from by omega)]
            rw [show typeSize 4 = 4 from rfl, Nat.mul_comm g.num_bands 4]
            rw [oolValue_258]
            exact bps_slice g (by omega)
        · refine ⟨fun _ => ?_, fun hbig => ?_, fun hcon => by simp at hcon⟩
          · dsimp only [enclen]
            rw [show typeSize 4 = 4 from rfl]
            omega
          · rw [hclassic hbig]
            simp [enclen, typeSize]
        · refine ⟨fun _ => ?_, fun hbig => ?_, fun hcon => by simp at hcon⟩
          · dsimp only [enclen]
            rw [show typeSize 4 = 4 from rfl]
            omega
          · rw [hclassic hbig]
            simp [enclen, typeSize]
        · refine ⟨fun _ => ?_, fun hbig => ?_, fun hcon => by simp at hcon⟩
          · dsimp only [enclen]
            rw [show typeSize 4 = 4 from rfl]
            omega
          · rw [hclassic hbig]
            simp [enclen, typeSize]
        · refine ⟨fun _ => ?_, fun hbig => ?_, fun hcon => by simp at hcon⟩
          · dsimp only [enclen]
            rw [show typeSize 4 = 4 from rfl]
            omega
          · rw [hclassic hbig]
            simp [enclen, typeSize]
        · refine ⟨fun _ => ?_, fun hbig => ?_, fun hcon => by simp at hcon⟩
          · dsimp only [enclen]
            rw [show typeSize 4 = 4 from rfl]
            omega
          · rw [hclassic hbig]
            simp [enclen, typeSize]
        · refine ⟨fun _ => ?_, fun hbig => ?_, fun hcon => by simp at hcon⟩
          · dsimp only [enclen]
            rw [show typeSize 4 = 4 from rfl]
            omega
          · rw [hclassic hbig]
            simp [enclen, typeSize]
        · refine ⟨fun hin => ?_, fun hbig => ?_, fun hcon => ?_⟩
          · have h1 : tile_count g = 1 := of_decide_eq_true hin
            dsimp only [enclen]
            rw [typeSize_tileoffsetype, h1, Nat.one_mul]
          · rw [hclassic hbig, hbig]
            dsimp only [enclen]
            rw [show typeSize (tileoffsetype false) = 4 from rfl]
            simp only [decide_eq_true_eq]
            omega
          · have h1 : ¬ (tile_count g = 1) := of_decide_eq_false hcon
            have hc2 : 1 < tile_count g := by omega
            dsimp only [enclen]
            rw [if_neg h1, typeSize_tileoffsetype]
            rw [oolValue_324]
            have ht1 := (tables_slice g hc2).1
            rw [hhs, ← htd1eq] at ht1
            exact ht1
        · refine ⟨fun hin => ?_, fun hbig => ?_, fun hcon => ?_⟩
          · have h1 : tile_count g = 1 := of_decide_eq_true hin
            dsimp only [enclen]
            rw [typeSize_tileoffsetype, h1, Nat.one_mul]
          · rw [hclassic hbig, hbig]
            dsimp only [enclen]
            rw [show typeSize (tileoffsetype false) = 4 from rfl]
            simp only [decide_eq_true_eq]
            omega
          · have h1 : ¬ (tile_count g = 1) := of_decide_eq_false hcon
            have hc2 : 1 < tile_count g := by omega
            dsimp only [enclen]
            rw [if_neg h1, typeSize_tileoffsetype, tileoffsetsize_eq_tdo]
            rw [oolValue_325]
            have ht2 := (tables_slice g hc2).2
            rw [hhs, ← htd1eq] at ht2
            exact ht2
        · refine ⟨fun hin => by simp at hin, fun hbig => ?_, fun _ => ?_⟩
          · rw [hclassic hbig]
            dsimp only [enclen]
            rw [show typeSize 4 = 4 from rfl]
            constructor
            · intro h1
              simp at h1
            · intro h1
              exfalso
              rw [long_size_eq] at h1
              omega
          · dsimp only [enclen]
            rw [show typeSize 4 = 4 from rfl]
            rw [show es.length / long_size * 4 = es.length from by rw [long_size_eq]; omega]
            rw [oolValue_338 g (bigtiff g) es hes]
            have h338 := es_slice g es hes hoo
            rw [← htd1eq] at h338
            exact h338
        · refine ⟨fun _ => ?_, fun hbig => ?_, fun hcon => by simp at hcon⟩
          · dsimp only [enclen]
            rw [show typeSize 4 = 4 from rfl]
            omega
          · rw [hclassic hbig]
            simp [enclen, typeSize]
        · obtain ⟨t, ht, heq, hsl⟩ := geoEntries_slices (nonData g) g.geotifftags _ hbase e he
          have hplen := (hgt t ht).1
          have hp4 := (hgt t ht).2.1
          have hids := (hgt t ht).2.2
          simp [geotiff_tagids] at hids
          refine ⟨fun hin => ?_, fun hbig => ?_, fun _ => ?_⟩
          · rw [heq] at hin
            simp at hin
          · rw [hclassic hbig]
            constructor
            · intro hin
              rw [heq] at hin
              simp at hin
            · intro hle
              exfalso
              rw [heq] at hle
              dsimp only [enclen] at hle
              rw [← hplen] at hle
              omega
          · rw [heq]
            dsimp only [enclen]
            rw [← hplen]
            have hne : t.tagid ≠ 258 ∧ t.tagid ≠ 324 ∧ t.tagid ≠ 325 ∧
                t.tagid ≠ 338 ∧ t.tagid ≠ 42113 := by omega
            rw [show oolValue g (bigtiff g) t.tagid = t.payload from by
              unfold oolValue
              rw [if_neg hne.1, if_neg hne.2.1, if_neg hne.2.2.1, if_neg hne.2.2.2.1,
                if_neg hne.2.2.2.2]
              rw [find?_geo g.geotifftags hch t ht]]
            exact hsl
      | some nd =>
        simp only [entries, hes, hnd] at he
        rw [if_pos hoo, if_pos hoo] at he
        simp only [List.mem_cons, List.mem_append, List.mem_singleton,
          List.mem_nil_iff, List.nil_append, List.append_nil, or_false] at he
        have hhs : getheadersize g (bigtiff g) = getheadersize_without_tag_data g (bigtiff g) +
            (if 1 < g.num_bands then long_size * g.num_bands else 0) +
            es.length +
            (g.geotifftags.map fun t => t.payload.length).sum + nd.length := by
          unfold getheadersize
          simp only [hes, hnd, hoo, if_true]
        have hmes : (match extrasamples g with
            | some es => if long_size < es.length then es.length else 0
            | none => 0) = es.length := by
          simp only [hes]
          rw [if_pos hoo]
        have hbase := geo_base_slice g
        rw [hmes, ← htd1eq] at hbase
        have hnd8 : 8 ≤ nd.length := by
          unfold nodata at hnd
          obtain ⟨s, hs1, hs2⟩ := Option.map_eq_some'.mp hnd
          rw [← hs2]
          simp
        have heslen : es.length = 4 + (num_extrasamples g - 1) * 4 := by
          unfold extrasamples at hes
          split at hes
          · rw [Option.some.injEq] at hes
            rw [← hes]
            simp [packLE_length, flatten_replicate_length]
          · exact absurd hes (by simp)
        rcases he with rfl | rfl | rfl | rfl | rfl | rfl | rfl | rfl | rfl | rfl | rfl | rfl | rfl | he | rfl
        · refine ⟨fun _ => ?_, fun hbig => ?_, fun hcon => by simp at hcon⟩
          · dsimp only [enclen]
            rw [show typeSize 4 = 4 from rfl]
            omega
          · rw [hclassic hbig]
            simp [enclen, typeSize]
        · refine ⟨fun _ => ?_, fun hbig => ?_, fun hcon => by simp at hcon⟩
          · dsimp only [enclen]
            rw [show typeSize 4 = 4 from rfl]
            omega
          · rw [hclassic hbig]
            simp [enclen, typeSize]
        · refine ⟨fun hin => ?_, fun hbig => ?_, fun hcon => ?_⟩
          · have h1 : g.num_bands ≤ 1 := of_decide_eq_true hin
            dsimp only [enclen]
            rw [show typeSize 4 = 4 from rfl]
            omega
          · rw [hclassic hbig]
            dsimp only [enclen]
            rw [show typeSize 4 = 4 from rfl]
            simp only [decide_eq_true_eq]
            omega
          · have h1 : ¬ (g.num_bands ≤ 1) := of_decide_eq_false hcon
            dsimp only [enclen]
            rw [if_pos (show 1 < g.num_bands from by omega)]
            rw [show typeSize 4 = 4 from rfl, Nat.mul_comm g.num_bands 4]
            rw [oolValue_258]
            exact bps_slice g (by omega)
        · refine ⟨fun _ => ?_, fun hbig => ?_, fun hcon => by simp at hcon⟩
          · dsimp only [enclen]
            rw [show typeSize 4 = 4 from rfl]
            omega
          · rw [hclassic hbig]
            simp [enclen, typeSize]
        · refine ⟨fun _ => ?_, fun hbig => ?_, fun hcon => by simp at hcon⟩
          · dsimp only [enclen]
            rw [show typeSize 4 = 4 from rfl]
            omega
          · rw [hclassic hbig]
            simp [enclen, typeSize]
        · refine ⟨fun _ => ?_, fun hbig => ?_, fun hcon => by simp at hcon⟩
          · dsimp only [enclen]
            rw [show typeSize 4 = 4 from rfl]
            omega
          · rw [hclassic hbig]
            simp [enclen, typeSize]
        · refine ⟨fun _ => ?_, fun hbig => ?_, fun hcon => by simp at hcon⟩
          · dsimp only [enclen]
            rw [show typeSize 4 = 4 from rfl]
            omega
          · rw [hclassic hbig]
            simp [enclen, typeSize]
        · refine ⟨fun _ => ?_, fun hbig => ?_, fun hcon => by simp at hcon⟩
          · dsimp only [enclen]
            rw [show typeSize 4 = 4 from rfl]
            omega
          · rw [hclassic hbig]
            simp [enclen, typeSize]
        · refine ⟨fun _ => ?_, fun hbig => ?_, fun hcon => by simp at hcon⟩
          · dsimp only [enclen]
            rw [show typeSize 4 = 4 from rfl]
            omega
          · rw [hclassic hbig]
            simp [enclen, typeSize]
        · refine ⟨fun hin => ?_, fun hbig => ?_, fun hcon => ?_⟩
          · have h1 : tile_count g = 1 := of_decide_eq_true hin
            dsimp only [enclen]
            rw [typeSize_tileoffsetype, h1, Nat.one_mul]
          · rw [hclassic hbig, hbig]
            dsimp only [enclen]
            rw [show typeSize (tileoffsetype false) = 4 from rfl]
            simp only [decide_eq_true_eq]
            omega
          · have h1 : ¬ (tile_count g = 1) := of_decide_eq_false hcon
            have hc2 : 1 < tile_count g := by omega
            dsimp only [enclen]
            rw [if_neg h1, typeSize_tileoffsetype]
            rw [oolValue_324]
            have ht1 := (tables_slice g hc2).1
            rw [hhs, ← htd1eq] at ht1
            exact ht1
        · refine ⟨fun hin => ?_, fun hbig => ?_, fun hcon => ?_⟩
          · have h1 : tile_count g = 1 := of_decide_eq_true hin
            dsimp only [enclen]
            rw [typeSize_tileoffsetype, h1, Nat.one_mul]
          · rw [hclassic hbig, hbig]
            dsimp only [enclen]
            rw [show typeSize (tileoffsetype false) = 4 from rfl]
            simp only [decide_eq_true_eq]
            omega
          · have h1 : ¬ (tile_count g = 1) := of_decide_eq_false hcon
            have hc2 : 1 < tile_count g := by omega
            dsimp only [enclen]
            rw [if_neg h1, typeSize_tileoffsetype, tileoffsetsize_eq_tdo]
            rw [oolValue_325]
            have ht2 := (tables_slice g hc2).2
            rw [hhs, ← htd1eq] at ht2
            exact ht2
        · refine ⟨fun hin => by simp at hin, fun hbig => ?_, fun _ => ?_⟩
          · rw [hclassic hbig]
            dsimp only [enclen]
            rw [show typeSize 4 = 4 from rfl]
            constructor
            · intro h1
              simp at h1
            · intro h1
              exfalso
              rw [long_size_eq] at h1
              omega
          · dsimp only [enclen]
            rw [show typeSize 4 = 4 from rfl]
            rw [show es.length / long_size * 4 = es.length from by rw [long_size_eq]; omega]
            rw [oolValue_338 g (bigtiff g) es hes]
            have h338 := es_slice g es hes hoo
            rw [← htd1eq] at h338
            exact h338
        · refine ⟨fun _ => ?_, fun hbig => ?_, fun hcon => by simp at hcon⟩
          · dsimp only [enclen]
            rw [show typeSize 4 = 4 from rfl]
            omega
          · rw [hclassic hbig]
            simp [enclen, typeSize]
        · obtain ⟨t, ht, heq, hsl⟩ := geoEntries_slices (nonData g) g.geotifftags _ hbase e he
          have hplen := (hgt t ht).1
          have hp4 := (hgt t ht).2.1
          have hids := (hgt t ht).2.2
          simp [geotiff_tagids] at hids
          refine ⟨fun hin => ?_, fun hbig => ?_, fun _ => ?_⟩
          · rw [heq] at hin
            simp at hin
          · rw [hclassic hbig]
            constructor
            · intro hin
              rw [heq] at hin
              simp at hin
            · intro hle
              exfalso
              rw [heq] at hle
              dsimp only [enclen] at hle
              rw [← hplen] at hle
              omega
          · rw [heq]
            dsimp only [enclen]
            rw [← hplen]
            have hne : t.tagid ≠ 258 ∧ t.tagid ≠ 324 ∧ t.tagid ≠ 325 ∧
                t.tagid ≠ 338 ∧ t.tagid ≠ 42113 := by omega
            rw [show oolValue g (bigtiff g) t.tagid = t.payload from by
              unfold oolValue
              rw [if_neg hne.1, if_neg hne.2.1, if_neg hne.2.2.1, if_neg hne.2.2.2.1,
                if_neg hne.2.2.2.2]
              rw [find?_geo g.geotifftags hch t ht]]
            exact hsl
        · refine ⟨fun hin => by simp at hin, fun hbig => ?_, fun _ => ?_⟩
          · rw [hclassic hbig]
            dsimp only [enclen]
            rw [show typeSize 2 = 1 from rfl, Nat.mul_one]
            constructor
            · intro h1
              simp at h1
            · intro h1
              exfalso
              omega
          · dsimp only [enclen]
            rw [show typeSize 2 = 1 from rfl, Nat.mul_one]
            rw [oolValue_42113 g (bigtiff g) nd hnd]
            have hsl2 := nodata_slice g nd hnd
            rw [hmes, ← htd1eq] at hsl2
            exact hsl2
    · cases hnd : nodata g with
      | none =>
        simp only [entries, hes, hnd] at he
        rw [if_neg hoo, if_neg hoo] at he
        simp only [List.mem_cons, List.mem_append, List.mem_singleton,
          List.mem_nil_iff, List.nil_append, List.append_nil, or_false] at he
        have hhs : getheadersize g (bigtiff g) = getheadersize_without_tag_data g (bigtiff g) +
            (if 1 < g.num_bands then long_size * g.num_bands else 0) +
            0 +
            (g.geotifftags.map fun t => t.payload.length).sum + 0 := by
          unfold getheadersize
          simp only [hes, hnd, hoo, if_false]
        have hmes : (match extrasamples g with
            | some es => if long_size < es.length then es.length else 0
            | none => 0) = 0 := by
          simp only [hes]
          rw [if_neg hoo]
        have hbase := geo_base_slice g
        rw [hmes, ← htd1eq] at hbase
        rcases he with rfl | rfl | rfl | rfl | rfl | rfl | rfl | rfl | rfl | rfl | rfl | rfl | rfl | he
        · refine ⟨fun _ => ?_, fun hbig => ?_, fun hcon => by simp at hcon⟩
          · dsimp only [enclen]
            rw [show typeSize 4 = 4 from rfl]
            omega
          · rw [hclassic hbig]
            simp [enclen, typeSize]
        · refine ⟨fun _ => ?_, fun hbig => ?_, fun hcon => by simp at hcon⟩
          · dsimp only [enclen]
            rw [show typeSize 4 = 4 from rfl]
            omega
          · rw [hclassic hbig]
            simp [enclen, typeSize]
        · refine ⟨fun hin => ?_, fun hbig => ?_, fun hcon => ?_⟩
          · have h1 : g.num_bands ≤ 1 := of_decide_eq_true hin
            dsimp only [enclen]
            rw [show typeSize 4 = 4 from rfl]
            omega
          · rw [hclassic hbig]
            dsimp only [enclen]
            rw [show typeSize 4 = 4 from rfl]
            simp only [decide_eq_true_eq]
            omega
          · have h1 : ¬ (g.num_bands ≤ 1) := of_decide_eq_false hcon
            dsimp only [enclen]
            rw [if_pos (show 1 < g.num_bands from by omega)]
            rw [show typeSize 4 = 4 from rfl, Nat.mul_comm g.num_bands 4]
            rw [oolValue_258]
            exact bps_slice g (by omega)
        · refine ⟨fun _ => ?_, fun hbig => ?_, fun hcon => by simp at hcon⟩
          · dsimp only [enclen]
            rw [show typeSize 4 = 4 from rfl]
            omega
          · rw [hclassic hbig]
            simp [enclen, typeSize]
        · refine ⟨fun _ => ?_, fun hbig => ?_, fun hcon => by simp at hcon⟩
          · dsimp only [enclen]
            rw [show typeSize 4 = 4 from rfl]
            omega
          · rw [hclassic hbig]
            simp [enclen, typeSize]
        · refine ⟨fun _ => ?_, fun hbig => ?_, fun hcon => by simp at hcon⟩
          · dsimp only [enclen]
            rw [show typeSize 4 = 4 from rfl]
            omega
          · rw [hclassic hbig]
            simp [enclen, typeSize]
        · refine ⟨fun _ => ?_, fun hbig => ?_, fun hcon => by simp at hcon⟩
          · dsimp only [enclen]
            rw [show typeSize 4 = 4 from rfl]
            omega
          · rw [hclassic hbig]
            simp [enclen, typeSize]
        · refine ⟨fun _ => ?_, fun hbig => ?_, fun hcon => by simp at hcon⟩
          · dsimp only [enclen]
            rw [show typeSize 4 = 4 from rfl]
            omega
          · rw [hclassic hbig]
            simp [enclen, typeSize]
        · refine ⟨fun _ => ?_, fun hbig => ?_, fun hcon => by simp at hcon⟩
          · dsimp only [enclen]
            rw [show typeSize 4 = 4 from rfl]
            omega
          · rw [hclassic hbig]
            simp [enclen, typeSize]
        · refine ⟨fun hin => ?_, fun hbig => ?_, fun hcon => ?_⟩
          · have h1 : tile_count g = 1 := of_decide_eq_true hin
            dsimp only [enclen]
            rw [typeSize_tileoffsetype, h1, Nat.one_mul]
          · rw [hclassic hbig, hbig]
            dsimp only [enclen]
            rw [show typeSize (tileoffsetype false) = 4 from rfl]
            simp only [decide_eq_true_eq]
            omega
          · have h1 : ¬ (tile_count g = 1) := of_decide_eq_false hcon
            have hc2 : 1 < tile_count g := by omega
            dsimp only [enclen]
            rw [if_neg h1, typeSize_tileoffsetype]
            rw [oolValue_324]
            have ht1 := (tables_slice g hc2).1
            rw [hhs, ← htd1eq] at ht1
            exact ht1
        · refine ⟨fun hin => ?_, fun hbig => ?_, fun hcon => ?_⟩
          · have h1 : tile_count g = 1 := of_decide_eq_true hin
            dsimp only [enclen]
            rw [typeSize_tileoffsetype, h1, Nat.one_mul]
          · rw [hclassic hbig, hbig]
            dsimp only [enclen]
            rw [show typeSize (tileoffsetype false) = 4 from rfl]
            simp only [decide_eq_true_eq]
            omega
          · have h1 : ¬ (tile_count g = 1) := of_decide_eq_false hcon
            have hc2 : 1 < tile_count g := by omega
            dsimp only [enclen]
            rw [if_neg h1, typeSize_tileoffsetype, tileoffsetsize_eq_tdo]
            rw [oolValue_325]
            have ht2 := (tables_slice g hc2).2
            rw [hhs, ← htd1eq] at ht2
            exact ht2
        · refine ⟨fun _ => ?_, fun hbig => ?_, fun hcon => by simp at hcon⟩
          · dsimp only [enclen]
            rw [show typeSize 4 = 4 from rfl]
            omega
          · rw [hclassic hbig]
            simp [enclen, typeSize]
        · refine ⟨fun _ => ?_, fun hbig => ?_, fun hcon => by simp at hcon⟩
          · dsimp only [enclen]
            rw [show typeSize 4 = 4 from rfl]
            omega
          · rw [hclassic hbig]
            simp [enclen, typeSize]
        · obtain ⟨t, ht, heq, hsl⟩ := geoEntries_slices (nonData g) g.geotifftags _ hbase e he
          have hplen := (hgt t ht).1
          have hp4 := (hgt t ht).2.1
          have hids := (hgt t ht).2.2
          simp [geotiff_tagids] at hids
          refine ⟨fun hin => ?_, fun hbig => ?_, fun _ => ?_⟩
          · rw [heq] at hin
            simp at hin
          · rw [hclassic hbig]
            constructor
            · intro hin
              rw [heq] at hin
              simp at hin
            · intro hle
              exfalso
              rw [heq] at hle
              dsimp only [enclen] at hle
              rw [← hplen] at hle
              omega
          · rw [heq]
            dsimp only [enclen]
            rw [← hplen]
            have hne : t.tagid ≠ 258 ∧ t.tagid ≠ 324 ∧ t.tagid ≠ 325 ∧
                t.tagid ≠ 338 ∧ t.tagid ≠ 42113 := by omega
            rw [show oolValue g (bigtiff g) t.tagid = t.payload from by
              unfold oolValue
              rw [if_neg hne.1, if_neg hne.2.1, if_neg hne.2.2.1, if_neg hne.2.2.2.1,
                if_neg hne.2.2.2.2]
              rw [find?_geo g.geotifftags hch t ht]]
            exact hsl
      | some nd =>
        simp only [entries, hes, hnd] at he
        rw [if_neg hoo, if_neg hoo] at he
        simp only [List.mem_cons, List.mem_append, List.mem_singleton,
          List.mem_nil_iff, List.nil_append, List.append_nil, or_false] at he
        have hhs : getheadersize g (bigtiff g) = getheadersize_without_tag_data g (bigtiff g) +
            (if 1 < g.num_bands then long_size * g.num_bands else 0) +
            0 +
            (g.geotifftags.map fun t => t.payload.length).sum + nd.length := by
          unfold getheadersize
          simp only [hes, hnd, hoo, if_false]
        have hmes : (match extrasamples g with
            | some es => if long_size < es.length then es.length else 0
            | none => 0) = 0 := by
          simp only [hes]
          rw [if_neg hoo]
        have hbase := geo_base_slice g
        rw [hmes, ← htd1eq] at hbase
        have hnd8 : 8 ≤ nd.length := by
          unfold nodata at hnd
          obtain ⟨s, hs1, hs2⟩ := Option.map_eq_some'.mp hnd
          rw [← hs2]
          simp
        rcases he with rfl | rfl | rfl | rfl | rfl | rfl | rfl | rfl | rfl | rfl | rfl | rfl | rfl | he | rfl
        · refine ⟨fun _ => ?_, fun hbig => ?_, fun hcon => by simp at hcon⟩
          · dsimp only [enclen]
            rw [show typeSize 4 = 4 from rfl]
            omega
          · rw [hclassic hbig]
            simp [enclen, typeSize]
        · refine ⟨fun _ => ?_, fun hbig => ?_, fun hcon => by simp at hcon⟩
          · dsimp only [enclen]
            rw [show typeSize 4 = 4 from rfl]
            omega
          · rw [hclassic hbig]
            simp [enclen, typeSize]
        · refine ⟨fun hin => ?_, fun hbig => ?_, fun hcon => ?_⟩
          · have h1 : g.num_bands ≤ 1 := of_decide_eq_true hin
            dsimp only [enclen]
            rw [show typeSize 4 = 4 from rfl]
            omega
          · rw [hclassic hbig]
            dsimp only [enclen]
            rw [show typeSize 4 = 4 from rfl]
            simp only [decide_eq_true_eq]
            omega
          · have h1 : ¬ (g.num_bands ≤ 1) := of_decide_eq_false hcon
            dsimp only [enclen]
            rw [if_pos (show 1 < g.num_bands from by omega)]
            rw [show typeSize 4 = 4 from rfl, Nat.mul_comm g.num_bands 4]
            rw [oolValue_258]
            exact bps_slice g (by omega)
        · refine ⟨fun _ => ?_, fun hbig => ?_, fun hcon => by simp at hcon⟩
          · dsimp only [enclen]
            rw [show typeSize 4 = 4 from rfl]
            omega
          · rw [hclassic hbig]
            simp [enclen, typeSize]
        · refine ⟨fun _ => ?_, fun hbig => ?_, fun hcon => by simp at hcon⟩
          · dsimp only [enclen]
            rw [show typeSize 4 = 4 from rfl]
            omega
          · rw [hclassic hbig]
            simp [enclen, typeSize]
        · refine ⟨fun _ => ?_, fun hbig => ?_, fun hcon => by simp at hcon⟩
          · dsimp only [enclen]
            rw [show typeSize 4 = 4 from rfl]
            omega
          · rw [hclassic hbig]
            simp [enclen, typeSize]
        · refine ⟨fun _ => ?_, fun hbig => ?_, fun hcon => by simp at hcon⟩
          · dsimp only [enclen]
            rw [show typeSize 4 = 4 from rfl]
            omega
          · rw [hclassic hbig]
            simp [enclen, typeSize]
        · refine ⟨fun _ => ?_, fun hbig => ?_, fun hcon => by simp at hcon⟩
          · dsimp only [enclen]
            rw [show typeSize 4 = 4 from rfl]
            omega
          · rw [hclassic hbig]
            simp [enclen, typeSize]
        · refine ⟨fun _ => ?_, fun hbig => ?_, fun hcon => by simp at hcon⟩
          · dsimp only [enclen]
            rw [show typeSize 4 = 4 from rfl]
            omega
          · rw [hclassic hbig]
            simp [enclen, typeSize]
        · refine ⟨fun hin => ?_, fun hbig => ?_, fun hcon => ?_⟩
          · have h1 : tile_count g = 1 := of_decide_eq_true hin
            dsimp only [enclen]
            rw [typeSize_tileoffsetype, h1, Nat.one_mul]
          · rw [hclassic hbig, hbig]
            dsimp only [enclen]
            rw [show typeSize (tileoffsetype false) = 4 from rfl]
            simp only [decide_eq_true_eq]
            omega
          · have h1 : ¬ (tile_count g = 1) := of_decide_eq_false hcon
            have hc2 : 1 < tile_count g := by omega
            dsimp only [enclen]
            rw [if_neg h1, typeSize_tileoffsetype]
            rw [oolValue_324]
            have ht1 := (tables_slice g hc2).1
            rw [hhs, ← htd1eq] at ht1
            exact ht1
        · refine ⟨fun hin => ?_, fun hbig => ?_, fun hcon => ?_⟩
          · have h1 : tile_count g = 1 := of_decide_eq_true hin
            dsimp only [enclen]
            rw [typeSize_tileoffsetype, h1, Nat.one_mul]
          · rw [hclassic hbig, hbig]
            dsimp only [enclen]
            rw [show typeSize (tileoffsetype false) = 4 from rfl]
            simp only [decide_eq_true_eq]
            omega
          · have h1 : ¬ (tile_count g = 1) := of_decide_eq_false hcon
            have hc2 : 1 < tile_count g := by omega
            dsimp only [enclen]
            rw [if_neg h1, typeSize_tileoffsetype, tileoffsetsize_eq_tdo]
            rw [oolValue_325]
            have ht2 := (tables_slice g hc2).2
            rw [hhs, ← htd1eq] at ht2
            exact ht2
        · refine ⟨fun _ => ?_, fun hbig => ?_, fun hcon => by simp at hcon⟩
          · dsimp only [enclen]
            rw [show typeSize 4 = 4 from rfl]
            omega
          · rw [hclassic hbig]
            simp [enclen, typeSize]
        · refine ⟨fun _ => ?_, fun hbig => ?_, fun hcon => by simp at hcon⟩
          · dsimp only [enclen]
            rw [show typeSize 4 = 4 from rfl]
            omega
          · rw [hclassic hbig]
            simp [enclen, typeSize]
        · obtain ⟨t, ht, heq, hsl⟩ := geoEntries_slices (nonData g) g.geotifftags _ hbase e he
          have hplen := (hgt t ht).1
          have hp4 := (hgt t ht).2.1
          have hids := (hgt t ht).2.2
          simp [geotiff_tagids] at hids
          refine ⟨fun hin => ?_, fun hbig => ?_, fun _ => ?_⟩
          · rw [heq] at hin
            simp at hin
          · rw [hclassic hbig]
            constructor
            · intro hin
              rw [heq] at hin
              simp at hin
            · intro hle
              exfalso
              rw [heq] at hle
              dsimp only [enclen] at hle
              rw [← hplen] at hle
              omega
          · rw [heq]
            dsimp only [enclen]
            rw [← hplen]
            have hne : t.tagid ≠ 258 ∧ t.tagid ≠ 324 ∧ t.tagid ≠ 325 ∧
                t.tagid ≠ 338 ∧ t.tagid ≠ 42113 := by omega
            rw [show oolValue g (bigtiff g) t.tagid = t.payload from by
              unfold oolValue
              rw [if_neg hne.1, if_neg hne.2.1, if_neg hne.2.2.1, if_neg hne.2.2.2.1,
                if_neg hne.2.2.2.2]
              rw [find?_geo g.geotifftags hch t ht]]
            exact hsl
        · refine ⟨fun hin => by simp at hin, fun hbig => ?_, fun _ => ?_⟩
          · rw [hclassic hbig]
            dsimp only [enclen]
            rw [show typeSize 2 = 1 from rfl, Nat.mul_one]
            constructor
            · intro h1
              simp at h1
            · intro h1
              exfalso
              omega
          · dsimp only [enclen]
            rw [show typeSize 2 = 1 from rfl, Nat.mul_one]
            rw [oolValue_42113 g (bigtiff g) nd hnd]
            have hsl2 := nodata_slice g nd hnd
            rw [hmes, ← htd1eq] at hsl2
            exact hsl2

/-- Counterexample to the original C4 claim: in BigTIFF mode the offset field
is 8 bytes wide, and the BitsPerSample value of a 2-band byte raster encodes
to 8 bytes, so by the claimed "if and only if" it should be inlined; the code
nevertheless places it out of line because it compares against the classic
4-byte long size in both modes. -/
theorem claim_C4_counterexample :
    bigtiff cfgBig = true ∧
      (⟨258, 4, 2, 292, false⟩ : TagEntry) ∈ entries cfgBig (bigtiff cfgBig) ∧
      enclen ⟨258, 4, 2, 292, false⟩ ≤ tag_data_or_offset_size (bigtiff cfgBig) ∧
      (⟨258, 4, 2, 292, false⟩ : TagEntry).inlined = false := by
  decide

/-- Witness for `claim_C4` at the concrete single-band 512x512 byte raster. -/
theorem claim_C4_witness :
    WF cfgSmall ∧
      ((∀ e ∈ entries cfgSmall (bigtiff cfgSmall), e.inlined = true →
        enclen e ≤ tag_data_or_offset_size (bigtiff cfgSmall)) ∧
      (bigtiff cfgSmall = false → ∀ e ∈ entries cfgSmall (bigtiff cfgSmall),
        (e.inlined = true ↔
          enclen e ≤ tag_data_or_offset_size (bigtiff cfgSmall))) ∧
      (∀ e ∈ entries cfgSmall (bigtiff cfgSmall), e.inlined = false →
        ((nonData cfgSmall).drop e.valueOrOffset).take (enclen e) =
          oolValue cfgSmall (bigtiff cfgSmall) e.tagid)) := by
  have hwf : WF cfgSmall := by
    refine ⟨by decide, by decide, by decide, ?_, ?_, ?_⟩
    · intro i _
      have h1 : cfgSmall.tileData i = List.replicate 262144 0 := rfl
      rw [h1, List.length_replicate]
      decide
    · intro t ht
      rw [show cfgSmall.geotifftags = [] from rfl] at ht
      exact absurd ht (List.not_mem_nil t)
    · rw [show cfgSmall.geotifftags = [] from rfl]
      simp
  exact ⟨hwf, claim_C4 cfgSmall hwf⟩

end CogServer
